import Mathlib

/-!
Excel to VCF converter: header classification, contact extraction, serialisation.

A shallow embedding of the pure core of `src/src/App.js`:

* `detectColumnMapping` (lines 62-92): the keyword classifier of a header row;
* the extraction loop of `generateVCF` (lines 122-172);
* the serialisation loop of `generateVCF` (lines 177-214).

JavaScript values that occur in a sheet are modelled by `Cell`; JavaScript truthiness,
`||`, template literals, `String.prototype.includes`, `toLowerCase` and `trim` are
modelled by the functions of the first section.
-/

namespace ExcelToVcf

/-! ## JavaScript values and string primitives -/

/-- A cell of a sheet as produced by `XLSX.utils.sheet_to_json(ws, {header: 1})`:
an absent cell (`undefined`, `null` or a hole of the row array), a string or a number.
Numbers are modelled by the integers, printed in decimal; fractional numbers are outside
the model. -/
inductive Cell where
  | empty
  | str (s : String)
  | num (n : Int)
  deriving DecidableEq, Repr

/-- JavaScript truthiness of a cell value: `undefined`, `''` and `0` are falsy. In the
statements below a value is called empty when it is falsy and non-empty when it is
truthy. -/
def Cell.truthy : Cell → Bool
  | .empty => false
  | .str s => !(s.data.isEmpty)
  | .num n => !(n == 0)

/-- The string a value becomes inside a template literal. -/
def Cell.toText : Cell → String
  | .empty => "undefined"
  | .str s => s
  | .num n => toString n

/-- The expression `v || ''`. -/
def orEmpty (v : Cell) : Cell :=
  if v.truthy then v else .str ""

/-- Lower-casing of one character: ASCII capitals and the capitals of the Latin-1
supplement (U+00C0..U+00DE without the multiplication sign U+00D7). -/
def lowerChar (c : Char) : Char :=
  if (65 ≤ c.toNat ∧ c.toNat ≤ 90) ∨ (192 ≤ c.toNat ∧ c.toNat ≤ 222 ∧ c.toNat ≠ 215) then
    Char.ofNat (c.toNat + 32)
  else c

/-- The method `String.prototype.toLowerCase`, on the ASCII and Latin-1 letters. -/
def toLowerCase (s : String) : String :=
  ⟨s.data.map lowerChar⟩

/-- The method `String.prototype.includes`: `k` occurs in `s` as a contiguous block. -/
def includes (s k : String) : Bool :=
  s.data.tails.any (fun t => k.data.isPrefixOf t)

/-- White space and line terminators removed by `String.prototype.trim`. -/
def isWhiteSpace (c : Char) : Bool :=
  let n := c.toNat
  n == 9 || n == 10 || n == 11 || n == 12 || n == 13 || n == 32 || n == 160 ||
  n == 5760 || (8192 ≤ n && n ≤ 8202) || n == 8232 || n == 8233 || n == 8239 ||
  n == 8287 || n == 12288 || n == 65279

/-- The method `String.prototype.trim`. -/
def trim (s : String) : String :=
  ⟨((s.data.dropWhile isWhiteSpace).reverse.dropWhile isWhiteSpace).reverse⟩

/-- The callback protocol of `Array.prototype.forEach` with a threaded state: the
callback receives the element and its index, starting at index `i`. -/
def forEachFrom {σ α : Type} (f : σ → α → Nat → σ) : σ → List α → Nat → σ
  | s, [], _ => s
  | s, x :: xs, i => forEachFrom f (f s x i) xs (i + 1)

/-! ## Header classifier: `detectColumnMapping` -/

/-- The object `mapping`: each slot is either absent or bound to a column index. -/
structure Mapping where
  fullName : Option Nat := none
  firstName : Option Nat := none
  lastName : Option Nat := none
  phone1 : Option Nat := none
  phone2 : Option Nat := none
  phone3 : Option Nat := none
  email : Option Nat := none
  organization : Option Nat := none
  title : Option Nat := none
  address : Option Nat := none
  deriving DecidableEq, Repr

/-- The test `!mapping.slot`: true when the slot is absent and also when it holds 0. -/
def notSet : Option Nat → Bool
  | none => true
  | some 0 => true
  | some (_ + 1) => false

/-- The expression `header?.toString().toLowerCase() || ''` (line 66). -/
def lowerHeader (header : Cell) : String :=
  match header with
  | .empty => ""
  | .str s => toLowerCase s
  | .num n => toLowerCase (toString n)

/-- Condition of line 68. -/
def isFirstName (l : String) : Bool :=
  includes l "prénom" || (includes l "first" && includes l "name")

/-- Condition of line 70. -/
def isLastName (l : String) : Bool :=
  includes l "nom" || (includes l "last" && includes l "name")

/-- Condition of line 72. -/
def isFullName (l : String) : Bool :=
  includes l "nom complet" || (includes l "full" && includes l "name")

/-- Condition of line 76. -/
def isPhone (l : String) : Bool :=
  includes l "téléphone" || includes l "phone" || includes l "mobile" || includes l "cell"

/-- Condition of line 80. -/
def isEmail (l : String) : Bool :=
  includes l "email" || includes l "mail" || includes l "courriel"

/-- Condition of line 82. -/
def isOrganization (l : String) : Bool :=
  includes l "entreprise" || includes l "société" || includes l "company" ||
    includes l "organization"

/-- Condition of line 84. -/
def isTitle (l : String) : Bool :=
  includes l "titre" || includes l "poste" || includes l "title" || includes l "job"

/-- Condition of line 86. -/
def isAddress (l : String) : Bool :=
  includes l "adresse" || includes l "address"

/-- The phone branch (lines 77-79). -/
def bindPhone (mapping : Mapping) (index : Nat) : Mapping :=
  if notSet mapping.phone1 then { mapping with phone1 := some index }
  else if notSet mapping.phone2 then { mapping with phone2 := some index }
  else if notSet mapping.phone3 then { mapping with phone3 := some index }
  else mapping

/-- The body of the `headers.forEach` callback (lines 66-88). -/
def classifyHeader (mapping : Mapping) (header : Cell) (index : Nat) : Mapping :=
  let l := lowerHeader header
  if isFirstName l then { mapping with firstName := some index }
  else if isLastName l then { mapping with lastName := some index }
  else if isFullName l then { mapping with fullName := some index }
  else if includes l "nom" && notSet mapping.firstName && notSet mapping.lastName then
    { mapping with fullName := some index }
  else if isPhone l then bindPhone mapping index
  else if isEmail l then { mapping with email := some index }
  else if isOrganization l then { mapping with organization := some index }
  else if isTitle l then { mapping with title := some index }
  else if isAddress l then { mapping with address := some index }
  else mapping

/-- The function `detectColumnMapping` (lines 62-92). -/
def detectColumnMapping (headers : List Cell) : Mapping :=
  forEachFrom classifyHeader {} headers 0

/-! ## Record extractor: the first loop of `generateVCF` -/

/-- One entry of `contact.phones`. -/
structure Phone where
  type : String
  value : Cell
  deriving DecidableEq, Repr

/-- The object `contact` built for one data row. An absent `categories` is `none`. -/
structure Contact where
  fullName : Cell
  phones : List Phone
  email : Cell
  organization : Cell
  title : Cell
  address : Cell
  categories : Option String
  deriving DecidableEq, Repr

/-- A sheet of the workbook (lines 30-34). A row that is `undefined` is `none`. -/
structure Sheet where
  name : String
  data : List (Option (List Cell))
  deriving Repr

/-- The expression `row[mapping.slot]`: `undefined` when the slot is absent or the
index is outside the row. -/
def cellAt (row : List Cell) (slot : Option Nat) : Cell :=
  match slot with
  | none => .empty
  | some i => row.getD i .empty

/-- Name handling (lines 137-143). -/
def resolveFullName (mapping : Mapping) (row : List Cell) : Cell :=
  if mapping.fullName.isSome then
    orEmpty (cellAt row mapping.fullName)
  else
    let firstName := orEmpty (cellAt row mapping.firstName)
    let lastName := orEmpty (cellAt row mapping.lastName)
    .str (trim (firstName.toText ++ " " ++ lastName.toText))

/-- One of the three guarded `contact.phones.push` statements (lines 147-155). -/
def pushPhone (phones : List Phone) (slot : Option Nat) (row : List Cell) (type : String) :
    List Phone :=
  if slot.isSome && (cellAt row slot).truthy then
    phones ++ [{ type := type, value := cellAt row slot }]
  else phones

/-- Phone handling (lines 146-155). -/
def collectPhones (mapping : Mapping) (row : List Cell) : List Phone :=
  let phones := []
  let phones := pushPhone phones mapping.phone1 row "TEL;TYPE=CELL"
  let phones := pushPhone phones mapping.phone2 row "TEL;TYPE=WORK"
  let phones := pushPhone phones mapping.phone3 row "TEL;TYPE=HOME"
  phones

/-- The contact object as it stands at line 167, before the admission test. -/
def buildContact (mapping : Mapping) (useSheetAsTag : Bool) (sheetName : String)
    (row : List Cell) : Contact :=
  { fullName := resolveFullName mapping row
    phones := collectPhones mapping row
    email := orEmpty (cellAt row mapping.email)
    organization := orEmpty (cellAt row mapping.organization)
    title := orEmpty (cellAt row mapping.title)
    address := orEmpty (cellAt row mapping.address)
    categories := if useSheetAsTag then some sheetName else none }

/-- The admission test of line 168. -/
def admitted (contact : Contact) : Bool :=
  contact.fullName.truthy || decide (contact.phones.length > 0) || contact.email.truthy

/-- The test `row.every(cell => !cell)` of line 132. -/
def isBlank (row : List Cell) : Bool :=
  row.all (fun cell => !cell.truthy)

/-- The body of the `dataRows.forEach` callback (lines 132-170), as a transformer of
`allContacts`. -/
def extractRow (mapping : Mapping) (useSheetAsTag : Bool) (sheetName : String)
    (allContacts : List Contact) (row : Option (List Cell)) : List Contact :=
  match row with
  | none => allContacts
  | some row =>
    if isBlank row then allContacts
    else
      let contact := buildContact mapping useSheetAsTag sheetName row
      if admitted contact then allContacts ++ [contact] else allContacts

/-- The call `array.slice(start)` for a non-negative `start`. -/
def slice {α : Type} (array : List α) (start : Nat) : List α :=
  array.drop start

/-- Lines 129-171 for one sheet whose mapping and header row are resolved: the data
rows are visited in order, each one extending `allContacts`. -/
def extractSheet (mapping : Mapping) (headerRowIndex : Nat) (useSheetAsTag : Bool)
    (allContacts : List Contact) (sheet : Sheet) : List Contact :=
  let dataRows := slice sheet.data (headerRowIndex + 1)
  dataRows.foldl (extractRow mapping useSheetAsTag sheet.name) allContacts

/-- The component state read by `generateVCF` (lines 7-11). The objects
`columnMapping` and `headerRows` are keyed by sheet name. -/
structure AppState where
  sheets : List Sheet
  selectedSheets : List String
  columnMapping : String → Option Mapping
  headerRows : String → Option Nat
  useSheetAsTag : Bool

/-- The body of the `sheets.forEach` callback (lines 125-171). -/
def visitSheet (st : AppState) (allContacts : List Contact) (sheet : Sheet) : List Contact :=
  if !(st.selectedSheets.contains sheet.name) then allContacts
  else
    let mapping := (st.columnMapping sheet.name).getD {}
    let headerRowIndex := (st.headerRows sheet.name).getD 0
    extractSheet mapping headerRowIndex st.useSheetAsTag allContacts sheet

/-- The value of `allContacts` at line 174. -/
def collectContacts (st : AppState) : List Contact :=
  st.sheets.foldl (visitSheet st) []

/-! ## Interchange serialiser: the second loop of `generateVCF` -/

/-- Truthiness of `contact.categories`. -/
def categoriesSet : Option String → Bool
  | none => false
  | some s => !(s.data.isEmpty)

/-- The text of `contact.categories` inside a template literal. -/
def categoriesText : Option String → String
  | none => "undefined"
  | some s => s

/-- The body of the `contact.phones.forEach` callback (line 190). -/
def appendPhone (vcfContent : String) (phone : Phone) : String :=
  vcfContent ++ (phone.type ++ ":" ++ phone.value.toText ++ "\n")

/-- The body of the `allContacts.forEach` callback (lines 180-213), as a transformer of
`vcfContent`. -/
def appendCard (vcfContent : String) (contact : Contact) : String :=
  let vcfContent := vcfContent ++ "BEGIN:VCARD\n"
  let vcfContent := vcfContent ++ "VERSION:3.0\n"
  let vcfContent :=
    if contact.fullName.truthy then
      let vcfContent := vcfContent ++ ("FN:" ++ contact.fullName.toText ++ "\n")
      vcfContent ++ ("N:" ++ contact.fullName.toText ++ ";;;;\n")
    else vcfContent
  let vcfContent := contact.phones.foldl appendPhone vcfContent
  let vcfContent :=
    if contact.email.truthy then vcfContent ++ ("EMAIL:" ++ contact.email.toText ++ "\n")
    else vcfContent
  let vcfContent :=
    if contact.organization.truthy then
      vcfContent ++ ("ORG:" ++ contact.organization.toText ++ "\n")
    else vcfContent
  let vcfContent :=
    if contact.title.truthy then vcfContent ++ ("TITLE:" ++ contact.title.toText ++ "\n")
    else vcfContent
  let vcfContent :=
    if contact.address.truthy then
      vcfContent ++ ("ADR:;;" ++ contact.address.toText ++ ";;;;\n")
    else vcfContent
  let vcfContent :=
    if categoriesSet contact.categories then
      vcfContent ++ ("CATEGORIES:" ++ categoriesText contact.categories ++ "\n")
    else vcfContent
  vcfContent ++ "END:VCARD\n\n"

/-- The value of `vcfContent` at line 214 for a given `allContacts`. -/
def serialize (allContacts : List Contact) : String :=
  allContacts.foldl appendCard ""

/-- The text `vcfContent` that `generateVCF` builds from the component state. -/
def generateVCF (st : AppState) : String :=
  serialize (collectContacts st)

/-! ## Vocabulary of the statements -/

/-- The ten field slots of a column mapping. -/
inductive Slot where
  | fullName | firstName | lastName | phone1 | phone2 | phone3
  | email | organization | title | address
  deriving DecidableEq, Repr

/-- The column a slot is bound to. -/
def Mapping.get (m : Mapping) : Slot → Option Nat
  | .fullName => m.fullName
  | .firstName => m.firstName
  | .lastName => m.lastName
  | .phone1 => m.phone1
  | .phone2 => m.phone2
  | .phone3 => m.phone3
  | .email => m.email
  | .organization => m.organization
  | .title => m.title
  | .address => m.address

/-- The assignment `mapping.slot = index`. -/
def Mapping.set (m : Mapping) (s : Slot) (index : Nat) : Mapping :=
  match s with
  | .fullName => { m with fullName := some index }
  | .firstName => { m with firstName := some index }
  | .lastName => { m with lastName := some index }
  | .phone1 => { m with phone1 := some index }
  | .phone2 => { m with phone2 := some index }
  | .phone3 => { m with phone3 := some index }
  | .email => { m with email := some index }
  | .organization => { m with organization := some index }
  | .title => { m with title := some index }
  | .address => { m with address := some index }

/-- The header reaches the phone branch of the classifier (line 76): none of the name
conditions of lines 68-72 holds and the phone condition holds. The condition of line 74
needs no mention: it requires 'nom', which line 70 has already excluded. -/
def reachesPhone (header : Cell) : Bool :=
  !isFirstName (lowerHeader header) && !isLastName (lowerHeader header) &&
    !isFullName (lowerHeader header) && isPhone (lowerHeader header)

/-- The columns whose header reaches the phone branch, in increasing order. -/
def phoneColumns (headers : List Cell) : List Nat :=
  (List.range headers.length).filter (fun i => reachesPhone (headers.getD i .empty))

/-- The admitted contact of one row of a sheet, if any: nothing for an undefined row,
for a blank row, and for a row whose contact fails the admission test. -/
def admittedContact (mapping : Mapping) (useSheetAsTag : Bool) (sheetName : String)
    (row : Option (List Cell)) : Option Contact :=
  match row with
  | none => none
  | some row =>
    if isBlank row then none
    else if admitted (buildContact mapping useSheetAsTag sheetName row) then
      some (buildContact mapping useSheetAsTag sheetName row)
    else none

/-- The text a name sub-slot contributes: the text of its cell, and the empty string
when the slot is unbound or the cell is empty. -/
def slotText (row : List Cell) (slot : Option Nat) : String :=
  match slot with
  | none => ""
  | some j => if (row.getD j .empty).truthy then (row.getD j .empty).toText else ""

/-- The phone entry a slot contributes: one entry with the slot's label when the slot is
bound and its cell is non-empty, none otherwise. -/
def phoneEntry (row : List Cell) (slot : Option Nat) (label : String) : List Phone :=
  match slot with
  | none => []
  | some i =>
    if (row.getD i .empty).truthy then [{ type := label, value := row.getD i .empty }] else []

/-- Concatenation of a list of strings, in order. -/
def concatAll : List String → String
  | [] => ""
  | s :: ss => s ++ concatAll ss

/-- A line `pre ++ value ++ post` that is present only when the value is non-empty. -/
def optionalLine (pre : String) (v : Cell) (post : String) : String :=
  if v.truthy then pre ++ v.toText ++ post else ""

/-- The two name lines of a card, present only when `fullName` is non-empty. -/
def nameLines (c : Contact) : String :=
  if c.fullName.truthy then
    "FN:" ++ c.fullName.toText ++ "\n" ++ ("N:" ++ c.fullName.toText ++ ";;;;\n")
  else ""

/-- The line of one phone entry. -/
def phoneLine (p : Phone) : String :=
  p.type ++ ":" ++ p.value.toText ++ "\n"

/-- The lines of a card between the version line and the category line. -/
def cardBody (c : Contact) : String :=
  nameLines c ++ concatAll (c.phones.map phoneLine) ++ optionalLine "EMAIL:" c.email "\n" ++
    optionalLine "ORG:" c.organization "\n" ++ optionalLine "TITLE:" c.title "\n" ++
    optionalLine "ADR:;;" c.address ";;;;\n"

/-- The category line of a card, present only when the category is non-empty. -/
def categoriesLine (c : Contact) : String :=
  match c.categories with
  | none => ""
  | some s => if s.data.isEmpty then "" else "CATEGORIES:" ++ s ++ "\n"

/-- One card, as the specification describes it. -/
def cardText (c : Contact) : String :=
  "BEGIN:VCARD\n" ++ "VERSION:3.0\n" ++ cardBody c ++ categoriesLine c ++ "END:VCARD\n" ++ "\n"

/-- The header reaches the assignment of line 71: the condition of line 68 fails and
the condition of line 70 holds. -/
def takesLastName (header : Cell) : Bool :=
  !isFirstName (lowerHeader header) && isLastName (lowerHeader header)

/-- The callback of the classifier with the two parts that C11 calls dead taken out:
the keyword 'nom complet' of line 72 and the generic-'nom' branch of lines 74-75.
Everything else is as in `classifyHeader`. -/
def classifyHeaderLive (mapping : Mapping) (header : Cell) (index : Nat) : Mapping :=
  let l := lowerHeader header
  if isFirstName l then { mapping with firstName := some index }
  else if isLastName l then { mapping with lastName := some index }
  else if includes l "full" && includes l "name" then { mapping with fullName := some index }
  else if isPhone l then bindPhone mapping index
  else if isEmail l then { mapping with email := some index }
  else if isOrganization l then { mapping with organization := some index }
  else if isTitle l then { mapping with title := some index }
  else if isAddress l then { mapping with address := some index }
  else mapping

/-! ## Lemmas on the classifier -/

theorem forEachFrom_append {σ α : Type} (f : σ → α → Nat → σ) (l : List α) (x : α) :
    ∀ (s : σ) (i : Nat),
      forEachFrom f s (l ++ [x]) i = f (forEachFrom f s l i) x (i + l.length) := by
  induction l with
  | nil => intro s i; simp [forEachFrom]
  | cons y ys ih =>
    intro s i
    have h : i + (ys.length + 1) = i + 1 + ys.length := by omega
    rw [List.cons_append, forEachFrom, ih, List.length_cons, h, forEachFrom]

theorem detectColumnMapping_nil : detectColumnMapping [] = {} := rfl

theorem detectColumnMapping_snoc (l : List Cell) (x : Cell) :
    detectColumnMapping (l ++ [x]) = classifyHeader (detectColumnMapping l) x l.length := by
  unfold detectColumnMapping
  rw [forEachFrom_append]
  simp

theorem getElem?_snoc {α : Type} (l : List α) (x : α) (j : Nat) :
    (l ++ [x])[j]? = if j < l.length then l[j]? else if j = l.length then some x else none := by
  split
  · next h => exact List.getElem?_append_left h
  · next h =>
    rw [List.getElem?_append_right (by omega)]
    split
    · next h2 => simp [h2]
    · next h2 =>
      have : j - l.length ≠ 0 := by omega
      cases hk : j - l.length with
      | zero => exact absurd hk this
      | succ k => simp

theorem bindPhone_firstName (m : Mapping) (n : Nat) : (bindPhone m n).firstName = m.firstName := by
  unfold bindPhone
  split
  · rfl
  · split
    · rfl
    · split <;> rfl

theorem classifyHeader_firstName (m : Mapping) (x : Cell) (n : Nat) :
    (classifyHeader m x n).firstName =
      if isFirstName (lowerHeader x) then some n else m.firstName := by
  show (if isFirstName (lowerHeader x) = true then _ else _ : Mapping).firstName = _
  by_cases h1 : isFirstName (lowerHeader x) = true
  · rw [if_pos h1, if_pos h1]
  rw [if_neg h1, if_neg h1]
  by_cases h2 : isLastName (lowerHeader x) = true
  · rw [if_pos h2]
  rw [if_neg h2]
  by_cases h3 : isFullName (lowerHeader x) = true
  · rw [if_pos h3]
  rw [if_neg h3]
  by_cases h4 : (includes (lowerHeader x) "nom" && notSet m.firstName && notSet m.lastName) = true
  · rw [if_pos h4]
  rw [if_neg h4]
  by_cases h5 : isPhone (lowerHeader x) = true
  · rw [if_pos h5]; exact bindPhone_firstName m n
  rw [if_neg h5]
  by_cases h6 : isEmail (lowerHeader x) = true
  · rw [if_pos h6]
  rw [if_neg h6]
  by_cases h7 : isOrganization (lowerHeader x) = true
  · rw [if_pos h7]
  rw [if_neg h7]
  by_cases h8 : isTitle (lowerHeader x) = true
  · rw [if_pos h8]
  rw [if_neg h8]
  by_cases h9 : isAddress (lowerHeader x) = true
  · rw [if_pos h9]
  rw [if_neg h9]

theorem Mapping.get_set (m : Mapping) (s t : Slot) (n : Nat) :
    (m.set s n).get t = if t = s then some n else m.get t := by
  cases s <;> cases t <;> rfl

theorem bindPhone_cases (m : Mapping) (n : Nat) :
    bindPhone m n = m ∨ ∃ s, bindPhone m n = m.set s n := by
  unfold bindPhone
  split
  · exact Or.inr ⟨.phone1, rfl⟩
  · split
    · exact Or.inr ⟨.phone2, rfl⟩
    · split
      · exact Or.inr ⟨.phone3, rfl⟩
      · exact Or.inl rfl

theorem classifyHeader_cases (m : Mapping) (x : Cell) (n : Nat) :
    classifyHeader m x n = m ∨ ∃ s, classifyHeader m x n = m.set s n := by
  show (if isFirstName (lowerHeader x) = true then _ else _ : Mapping) = m ∨
    ∃ s, (if isFirstName (lowerHeader x) = true then _ else _ : Mapping) = m.set s n
  by_cases h1 : isFirstName (lowerHeader x) = true
  · rw [if_pos h1]; exact Or.inr ⟨.firstName, rfl⟩
  rw [if_neg h1]
  by_cases h2 : isLastName (lowerHeader x) = true
  · rw [if_pos h2]; exact Or.inr ⟨.lastName, rfl⟩
  rw [if_neg h2]
  by_cases h3 : isFullName (lowerHeader x) = true
  · rw [if_pos h3]; exact Or.inr ⟨.fullName, rfl⟩
  rw [if_neg h3]
  by_cases h4 : (includes (lowerHeader x) "nom" && notSet m.firstName && notSet m.lastName) = true
  · rw [if_pos h4]; exact Or.inr ⟨.fullName, rfl⟩
  rw [if_neg h4]
  by_cases h5 : isPhone (lowerHeader x) = true
  · rw [if_pos h5]; exact bindPhone_cases m n
  rw [if_neg h5]
  by_cases h6 : isEmail (lowerHeader x) = true
  · rw [if_pos h6]; exact Or.inr ⟨.email, rfl⟩
  rw [if_neg h6]
  by_cases h7 : isOrganization (lowerHeader x) = true
  · rw [if_pos h7]; exact Or.inr ⟨.organization, rfl⟩
  rw [if_neg h7]
  by_cases h8 : isTitle (lowerHeader x) = true
  · rw [if_pos h8]; exact Or.inr ⟨.title, rfl⟩
  rw [if_neg h8]
  by_cases h9 : isAddress (lowerHeader x) = true
  · rw [if_pos h9]; exact Or.inr ⟨.address, rfl⟩
  rw [if_neg h9]; exact Or.inl rfl

/-- Every column bound by the classifier lies inside the header row, and no column is
bound to two slots. -/
theorem detect_bound_and_distinct (headers : List Cell) :
    (∀ s i, (detectColumnMapping headers).get s = some i → i < headers.length) ∧
    (∀ s t i, s ≠ t → (detectColumnMapping headers).get s = some i →
      (detectColumnMapping headers).get t ≠ some i) := by
  induction headers using List.reverseRecOn with
  | nil =>
    constructor
    · intro s i h; cases s <;> exact Option.noConfusion h
    · intro s t i _ h; cases s <;> exact Option.noConfusion h
  | append_singleton l x ih =>
    obtain ⟨hb, hd⟩ := ih
    rw [detectColumnMapping_snoc]
    rcases classifyHeader_cases (detectColumnMapping l) x l.length with h | ⟨u, h⟩
    · rw [h]
      refine ⟨fun s i hs => ?_, hd⟩
      have := hb s i hs
      simp only [List.length_append, List.length_singleton]
      omega
    · rw [h]
      constructor
      · intro s i hs
        rw [Mapping.get_set] at hs
        simp only [List.length_append, List.length_singleton]
        split at hs
        · cases hs; omega
        · have := hb s i hs; omega
      · intro s t i hst hs ht
        rw [Mapping.get_set] at hs ht
        split at hs
        · next hsu =>
          cases hs
          split at ht
          · next htu => exact hst (hsu.trans htu.symm)
          · have := hb t _ ht; omega
        · next hsu =>
          split at ht
          · cases ht
            have := hb s _ hs; omega
          · exact hd s t i hst hs ht

/-! ## Claims on the classifier -/

/-- C1: with a phone header in column 0 the claim fails. On the header row
`["Mobile", "Phone"]` the phone columns are 0 and 1, yet the mapping binds only
`phone1 = 1` and column 0 is lost; on `["Mobile", "Phone", "Cell", "Téléphone"]` the
fourth phone column is bound to `phone3`. -/
theorem detect_phone_at_column_zero :
    detectColumnMapping [.str "Mobile", .str "Phone"] = { phone1 := some 1 } ∧
    detectColumnMapping [.str "Mobile", .str "Phone", .str "Cell", .str "Téléphone"] =
      { phone1 := some 1, phone2 := some 2, phone3 := some 3 } := by
  decide

/-- C2, as stated, fails: in the header row `["Prénom", "Prénom 2"]` both cells match
the first-name predicate and `firstName` is bound to column 1, not to the leftmost
column 0. -/
theorem detect_firstName_not_leftmost :
    isFirstName (lowerHeader (.str "Prénom")) = true ∧
    isFirstName (lowerHeader (.str "Prénom 2")) = true ∧
    (detectColumnMapping [.str "Prénom", .str "Prénom 2"]).firstName = some 1 ∧
    (detectColumnMapping [.str "Prénom", .str "Prénom 2"]).firstName ≠ some 0 := by
  decide

/-- C2, amended: `firstName` is bound to column `i` exactly when column `i` is the
rightmost column whose header matches the first-name predicate (every match re-binds the
slot, the last occurrence wins). -/
theorem detect_firstName_rightmost (headers : List Cell) (i : Nat) :
    (detectColumnMapping headers).firstName = some i ↔
      (∃ c, headers[i]? = some c ∧ isFirstName (lowerHeader c) = true) ∧
      (∀ j c, i < j → headers[j]? = some c → isFirstName (lowerHeader c) = false) := by
  induction headers using List.reverseRecOn with
  | nil =>
    rw [detectColumnMapping_nil]
    constructor
    · intro h; exact Option.noConfusion h
    · rintro ⟨⟨c, hc, _⟩, _⟩; simp at hc
  | append_singleton l x ih =>
    rw [detectColumnMapping_snoc, classifyHeader_firstName]
    by_cases hx : isFirstName (lowerHeader x) = true
    · rw [if_pos hx]
      constructor
      · intro h
        have hi : l.length = i := Option.some.inj h
        subst hi
        refine ⟨⟨x, by simp [getElem?_snoc], hx⟩, ?_⟩
        intro j c hj hc
        rw [getElem?_snoc, if_neg (by omega), if_neg (by omega)] at hc
        exact Option.noConfusion hc
      · rintro ⟨⟨c, hc, hp⟩, hlast⟩
        rw [getElem?_snoc] at hc
        by_cases h1 : i < l.length
        · have := hlast l.length x h1 (by simp [getElem?_snoc])
          rw [hx] at this
          exact Bool.noConfusion this
        · rw [if_neg h1] at hc
          by_cases h2 : i = l.length
          · rw [h2]
          · rw [if_neg h2] at hc
            exact Option.noConfusion hc
    · rw [if_neg hx, ih]
      have hx' : isFirstName (lowerHeader x) = false := by simpa using hx
      constructor
      · rintro ⟨⟨c, hc, hp⟩, hlast⟩
        have hi : i < l.length := by
          by_contra hge
          rw [List.getElem?_eq_none (by omega)] at hc
          exact Option.noConfusion hc
        refine ⟨⟨c, by rw [getElem?_snoc, if_pos hi]; exact hc, hp⟩, ?_⟩
        intro j d hj hd
        rw [getElem?_snoc] at hd
        by_cases h1 : j < l.length
        · rw [if_pos h1] at hd; exact hlast j d hj hd
        · rw [if_neg h1] at hd
          by_cases h2 : j = l.length
          · rw [if_pos h2] at hd
            cases hd
            exact hx'
          · rw [if_neg h2] at hd
            exact Option.noConfusion hd
      · rintro ⟨⟨c, hc, hp⟩, hlast⟩
        rw [getElem?_snoc] at hc
        by_cases h1 : i < l.length
        · rw [if_pos h1] at hc
          refine ⟨⟨c, hc, hp⟩, ?_⟩
          intro j d hj hd
          have hjl : j < l.length := by
            by_contra hge
            rw [List.getElem?_eq_none (by omega)] at hd
            exact Option.noConfusion hd
          exact hlast j d hj (by rw [getElem?_snoc, if_pos hjl]; exact hd)
        · rw [if_neg h1] at hc
          by_cases h2 : i = l.length
          · rw [if_pos h2] at hc
            cases hc
            rw [hp] at hx'
            exact Bool.noConfusion hx'
          · rw [if_neg h2] at hc
            exact Option.noConfusion hc

/-- C3: the mapping returned by `detectColumnMapping` is injective on its bound slots:
a column index bound to one slot is not the value of any other slot. -/
theorem detect_injective (headers : List Cell) (s t : Slot) (i : Nat) (hst : s ≠ t)
    (hs : (detectColumnMapping headers).get s = some i) :
    (detectColumnMapping headers).get t ≠ some i :=
  (detect_bound_and_distinct headers).2 s t i hst hs

/-- C3, at the header row `["Prénom", "Nom"]`: column 0 is bound to `firstName` and
therefore not to `lastName`. -/
theorem detect_injective_witness :
    Slot.firstName ≠ Slot.lastName ∧
    (detectColumnMapping [.str "Prénom", .str "Nom"]).get .firstName = some 0 ∧
    (detectColumnMapping [.str "Prénom", .str "Nom"]).get .lastName ≠ some 0 :=
  ⟨by decide, by decide,
    detect_injective [.str "Prénom", .str "Nom"] .firstName .lastName 0 (by decide) (by decide)⟩

/-! ## The phone slots when column 0 is not a phone column -/

theorem phoneColumns_snoc (l : List Cell) (x : Cell) :
    phoneColumns (l ++ [x]) =
      phoneColumns l ++ (if reachesPhone x = true then [l.length] else []) := by
  unfold phoneColumns
  rw [List.length_append, List.length_singleton, List.range_succ, List.filter_append]
  congr 1
  · apply List.filter_congr
    intro i hi
    rw [List.getD_append _ _ _ _ (List.mem_range.1 hi)]
  · rw [List.filter_singleton, List.getD_append_right _ _ _ _ (Nat.le_refl _)]
    simp

theorem mem_phoneColumns_lt (headers : List Cell) (p : Nat) (hp : p ∈ phoneColumns headers) :
    p < headers.length := by
  unfold phoneColumns at hp
  exact List.mem_range.1 (List.mem_filter.1 hp).1

theorem phoneColumns_nodup (headers : List Cell) : (phoneColumns headers).Nodup :=
  (List.nodup_range _).filter _

theorem classifyHeader_reachesPhone (m : Mapping) (x : Cell) (n : Nat)
    (hx : reachesPhone x = true) : classifyHeader m x n = bindPhone m n := by
  unfold reachesPhone at hx
  simp only [Bool.and_eq_true, Bool.not_eq_true'] at hx
  obtain ⟨⟨⟨h1, h2⟩, h3⟩, h5⟩ := hx
  have hnom : includes (lowerHeader x) "nom" = false := by
    unfold isLastName at h2
    simp only [Bool.or_eq_false_iff] at h2
    exact h2.1
  show (if isFirstName (lowerHeader x) = true then _ else _ : Mapping) = _
  rw [h1, h2, h3, hnom, h5]
  rfl

theorem classifyHeader_not_reachesPhone (m : Mapping) (x : Cell) (n : Nat)
    (hx : reachesPhone x = false) :
    classifyHeader m x n = m ∨
      ∃ s, s ≠ .phone1 ∧ s ≠ .phone2 ∧ s ≠ .phone3 ∧ classifyHeader m x n = m.set s n := by
  show (if isFirstName (lowerHeader x) = true then _ else _ : Mapping) = m ∨
    ∃ s, s ≠ .phone1 ∧ s ≠ .phone2 ∧ s ≠ .phone3 ∧
      (if isFirstName (lowerHeader x) = true then _ else _ : Mapping) = m.set s n
  by_cases h1 : isFirstName (lowerHeader x) = true
  · rw [if_pos h1]; exact Or.inr ⟨.firstName, by decide, by decide, by decide, rfl⟩
  rw [if_neg h1]
  by_cases h2 : isLastName (lowerHeader x) = true
  · rw [if_pos h2]; exact Or.inr ⟨.lastName, by decide, by decide, by decide, rfl⟩
  rw [if_neg h2]
  by_cases h3 : isFullName (lowerHeader x) = true
  · rw [if_pos h3]; exact Or.inr ⟨.fullName, by decide, by decide, by decide, rfl⟩
  rw [if_neg h3]
  by_cases h4 : (includes (lowerHeader x) "nom" && notSet m.firstName && notSet m.lastName) = true
  · rw [if_pos h4]; exact Or.inr ⟨.fullName, by decide, by decide, by decide, rfl⟩
  rw [if_neg h4]
  by_cases h5 : isPhone (lowerHeader x) = true
  · exfalso
    unfold reachesPhone at hx
    simp only [Bool.not_eq_true] at h1 h2 h3
    rw [h1, h2, h3, h5] at hx
    exact Bool.noConfusion hx
  rw [if_neg h5]
  by_cases h6 : isEmail (lowerHeader x) = true
  · rw [if_pos h6]; exact Or.inr ⟨.email, by decide, by decide, by decide, rfl⟩
  rw [if_neg h6]
  by_cases h7 : isOrganization (lowerHeader x) = true
  · rw [if_pos h7]; exact Or.inr ⟨.organization, by decide, by decide, by decide, rfl⟩
  rw [if_neg h7]
  by_cases h8 : isTitle (lowerHeader x) = true
  · rw [if_pos h8]; exact Or.inr ⟨.title, by decide, by decide, by decide, rfl⟩
  rw [if_neg h8]
  by_cases h9 : isAddress (lowerHeader x) = true
  · rw [if_pos h9]; exact Or.inr ⟨.address, by decide, by decide, by decide, rfl⟩
  rw [if_neg h9]; exact Or.inl rfl

theorem notSet_getElem? (pc : List Nat) (h0 : 0 ∉ pc) (k : Nat) :
    notSet pc[k]? = decide (pc.length ≤ k) := by
  cases hk : pc[k]? with
  | none =>
    have := List.getElem?_eq_none_iff.1 hk
    simp [notSet, this]
  | some p =>
    have hlt : k < pc.length := by
      by_contra hge
      rw [List.getElem?_eq_none (by omega)] at hk
      exact Option.noConfusion hk
    have hmem : p ∈ pc := List.getElem?_mem hk
    cases p with
    | zero => exact absurd hmem h0
    | succ q => simp [notSet, hlt]

theorem bindPhone_phone1 (m : Mapping) (n : Nat) :
    (bindPhone m n).phone1 = if notSet m.phone1 = true then some n else m.phone1 := by
  unfold bindPhone
  cases notSet m.phone1 <;> cases notSet m.phone2 <;> cases notSet m.phone3 <;> rfl

theorem bindPhone_phone2 (m : Mapping) (n : Nat) :
    (bindPhone m n).phone2 =
      if notSet m.phone1 = true then m.phone2
      else if notSet m.phone2 = true then some n else m.phone2 := by
  unfold bindPhone
  cases notSet m.phone1 <;> cases notSet m.phone2 <;> cases notSet m.phone3 <;> rfl

theorem bindPhone_phone3 (m : Mapping) (n : Nat) :
    (bindPhone m n).phone3 =
      if notSet m.phone1 = true then m.phone3
      else if notSet m.phone2 = true then m.phone3
      else if notSet m.phone3 = true then some n else m.phone3 := by
  unfold bindPhone
  cases notSet m.phone1 <;> cases notSet m.phone2 <;> cases notSet m.phone3 <;> rfl

theorem bindPhone_get_other (m : Mapping) (n : Nat) (s : Slot) (h1 : s ≠ .phone1)
    (h2 : s ≠ .phone2) (h3 : s ≠ .phone3) : (bindPhone m n).get s = m.get s := by
  unfold bindPhone
  cases notSet m.phone1 <;> cases notSet m.phone2 <;> cases notSet m.phone3 <;>
    cases s <;> first | rfl | exact absurd rfl h1 | exact absurd rfl h2 | exact absurd rfl h3

/-- The state of the phone slots after the classifier has read a header row in which
column 0 does not reach the phone branch: the three slots hold the first three phone
columns, and a slot other than the phone slots holds no phone column. -/
theorem detect_phone_slots (headers : List Cell) (h0 : 0 ∉ phoneColumns headers) :
    (detectColumnMapping headers).phone1 = (phoneColumns headers)[0]? ∧
    (detectColumnMapping headers).phone2 = (phoneColumns headers)[1]? ∧
    (detectColumnMapping headers).phone3 = (phoneColumns headers)[2]? ∧
    (∀ s, s ≠ .phone1 → s ≠ .phone2 → s ≠ .phone3 → ∀ p,
      (detectColumnMapping headers).get s = some p → p ∉ phoneColumns headers) := by
  induction headers using List.reverseRecOn with
  | nil =>
    refine ⟨rfl, rfl, rfl, ?_⟩
    intro s _ _ _ p hp
    cases s <;> exact Option.noConfusion hp
  | append_singleton l x ih =>
    rw [phoneColumns_snoc] at h0 ⊢
    rw [detectColumnMapping_snoc]
    have h0l : 0 ∉ phoneColumns l := fun h => h0 (List.mem_append_left _ h)
    obtain ⟨i1, i2, i3, i4⟩ := ih h0l
    have hbound := (detect_bound_and_distinct l).1
    by_cases hx : reachesPhone x = true
    · rw [if_pos hx] at h0 ⊢
      rw [classifyHeader_reachesPhone _ _ _ hx]
      have hn1 := notSet_getElem? (phoneColumns l) h0l 0
      have hn2 := notSet_getElem? (phoneColumns l) h0l 1
      have hn3 := notSet_getElem? (phoneColumns l) h0l 2
      rw [← i1] at hn1
      rw [← i2] at hn2
      rw [← i3] at hn3
      refine ⟨?_, ?_, ?_, ?_⟩
      · rw [bindPhone_phone1, hn1, getElem?_snoc, i1]
        by_cases hl : (phoneColumns l).length ≤ 0
        · have : (phoneColumns l).length = 0 := by omega
          simp [this]
        · have : 0 < (phoneColumns l).length := by omega
          simp [hl, this]
      · rw [bindPhone_phone2, hn1, hn2, getElem?_snoc, i2]
        by_cases hl0 : (phoneColumns l).length ≤ 0
        · have h1 : ¬ 1 < (phoneColumns l).length := by omega
          have h2 : ¬ 1 = (phoneColumns l).length := by omega
          have h3 : (phoneColumns l)[1]? = none := List.getElem?_eq_none (by omega)
          simp [hl0, h1, h2, h3]
        · by_cases hl1 : (phoneColumns l).length ≤ 1
          · have h1 : ¬ 1 < (phoneColumns l).length := by omega
            have h2 : 1 = (phoneColumns l).length := by omega
            simp [hl0, hl1, h1, ← h2]
          · have h1 : 1 < (phoneColumns l).length := by omega
            simp [hl0, hl1, h1]
      · rw [bindPhone_phone3, hn1, hn2, hn3, getElem?_snoc, i3]
        by_cases hl0 : (phoneColumns l).length ≤ 0
        · have h1 : ¬ 2 < (phoneColumns l).length := by omega
          have h2 : ¬ 2 = (phoneColumns l).length := by omega
          have h3 : (phoneColumns l)[2]? = none := List.getElem?_eq_none (by omega)
          simp [hl0, h1, h2, h3]
        · by_cases hl1 : (phoneColumns l).length ≤ 1
          · have h1 : ¬ 2 < (phoneColumns l).length := by omega
            have h2 : ¬ 2 = (phoneColumns l).length := by omega
            have h3 : (phoneColumns l)[2]? = none := List.getElem?_eq_none (by omega)
            simp [hl0, hl1, h1, h2, h3]
          · by_cases hl2 : (phoneColumns l).length ≤ 2
            · have h1 : ¬ 2 < (phoneColumns l).length := by omega
              have h2 : 2 = (phoneColumns l).length := by omega
              simp [hl0, hl1, hl2, h1, ← h2]
            · have h1 : 2 < (phoneColumns l).length := by omega
              simp [hl0, hl1, hl2, h1]
      · intro s hs1 hs2 hs3 p hp
        rw [bindPhone_get_other _ _ _ hs1 hs2 hs3] at hp
        have hlt := hbound s p hp
        rw [List.mem_append, List.mem_singleton]
        rintro (hmem | heq)
        · exact i4 s hs1 hs2 hs3 p hp hmem
        · omega
    · rw [if_neg hx, List.append_nil]
      have hx' : reachesPhone x = false := by simpa using hx
      rcases classifyHeader_not_reachesPhone (detectColumnMapping l) x l.length hx' with
        h | ⟨u, hu1, hu2, hu3, h⟩
      · rw [h]
        exact ⟨i1, i2, i3, i4⟩
      · rw [h]
        have g1 : ((detectColumnMapping l).set u l.length).get .phone1 =
            (detectColumnMapping l).get .phone1 := by
          rw [Mapping.get_set, if_neg (Ne.symm hu1)]
        have g2 : ((detectColumnMapping l).set u l.length).get .phone2 =
            (detectColumnMapping l).get .phone2 := by
          rw [Mapping.get_set, if_neg (Ne.symm hu2)]
        have g3 : ((detectColumnMapping l).set u l.length).get .phone3 =
            (detectColumnMapping l).get .phone3 := by
          rw [Mapping.get_set, if_neg (Ne.symm hu3)]
        refine ⟨g1.trans i1, g2.trans i2, g3.trans i3, ?_⟩
        intro s hs1 hs2 hs3 p hp hmem
        rw [Mapping.get_set] at hp
        by_cases hsu : s = u
        · rw [if_pos hsu] at hp
          cases hp
          exact absurd (mem_phoneColumns_lt l _ hmem) (Nat.lt_irrefl _)
        · rw [if_neg hsu] at hp
          exact i4 s hs1 hs2 hs3 p hp hmem

/-- The behaviour that C1 describes, where it holds: when column 0 does not reach the
phone branch, `phone1`, `phone2` and `phone3` are bound to the first, second and third
phone column, each when it exists, and a fourth or later phone column is bound to no
slot. -/
theorem detect_phones_column_zero_free (headers : List Cell)
    (h0 : 0 ∉ phoneColumns headers) :
    (detectColumnMapping headers).phone1 = (phoneColumns headers)[0]? ∧
    (detectColumnMapping headers).phone2 = (phoneColumns headers)[1]? ∧
    (detectColumnMapping headers).phone3 = (phoneColumns headers)[2]? ∧
    (∀ k p, 3 ≤ k → (phoneColumns headers)[k]? = some p →
      ∀ s, (detectColumnMapping headers).get s ≠ some p) := by
  obtain ⟨i1, i2, i3, i4⟩ := detect_phone_slots headers h0
  refine ⟨i1, i2, i3, ?_⟩
  intro k p hk hkp s hs
  have hklt : k < (phoneColumns headers).length := by
    by_contra hge
    rw [List.getElem?_eq_none (by omega)] at hkp
    exact Option.noConfusion hkp
  have hnd := List.nodup_iff_getElem?_ne_getElem?.1 (phoneColumns_nodup headers)
  have hmem : p ∈ phoneColumns headers := List.getElem?_mem hkp
  by_cases hs1 : s = .phone1
  · subst hs1
    exact hnd 0 k (by omega) hklt ((i1.symm.trans hs).trans hkp.symm)
  by_cases hs2 : s = .phone2
  · subst hs2
    exact hnd 1 k (by omega) hklt ((i2.symm.trans hs).trans hkp.symm)
  by_cases hs3 : s = .phone3
  · subst hs3
    exact hnd 2 k (by omega) hklt ((i3.symm.trans hs).trans hkp.symm)
  exact i4 s hs1 hs2 hs3 p hs hmem

/-- The header row `["Nom", "Mobile", "Phone", "Cell", "Téléphone"]`: its phone
columns are 1 to 4, the first three fill the phone slots and column 4 is bound to no
slot. -/
theorem detect_phones_column_zero_free_example :
    phoneColumns [.str "Nom", .str "Mobile", .str "Phone", .str "Cell", .str "Téléphone"] =
      [1, 2, 3, 4] ∧
    ∀ s, (detectColumnMapping
      [.str "Nom", .str "Mobile", .str "Phone", .str "Cell", .str "Téléphone"]).get s ≠
        some 4 :=
  ⟨by decide,
    (detect_phones_column_zero_free
      [.str "Nom", .str "Mobile", .str "Phone", .str "Cell", .str "Téléphone"]
      (by decide)).2.2.2 3 4 (by decide) (by decide)⟩

/-! ## Lemmas on the extractor -/

theorem extractRow_eq (mapping : Mapping) (tag : Bool) (name : String)
    (acc : List Contact) (row : Option (List Cell)) :
    extractRow mapping tag name acc row =
      acc ++ (admittedContact mapping tag name row).toList := by
  cases row with
  | none => simp [extractRow, admittedContact]
  | some r =>
    unfold extractRow admittedContact
    by_cases hb : isBlank r = true
    · simp [hb]
    · by_cases ha : admitted (buildContact mapping tag name r) = true
      · simp [hb, ha]
      · simp [hb, ha]

theorem foldl_extractRow (mapping : Mapping) (tag : Bool) (name : String)
    (rows : List (Option (List Cell))) :
    ∀ acc : List Contact,
      rows.foldl (extractRow mapping tag name) acc =
        acc ++ rows.filterMap (admittedContact mapping tag name) := by
  induction rows with
  | nil => intro acc; simp
  | cons r rs ih =>
    intro acc
    rw [List.foldl_cons, ih, extractRow_eq]
    cases h : admittedContact mapping tag name r with
    | none => simp [List.filterMap_cons, h]
    | some c => simp [List.filterMap_cons, h]

theorem extractSheet_eq (mapping : Mapping) (h : Nat) (tag : Bool) (acc : List Contact)
    (sheet : Sheet) :
    extractSheet mapping h tag acc sheet =
      acc ++ (sheet.data.drop (h + 1)).filterMap (admittedContact mapping tag sheet.name) := by
  unfold extractSheet slice
  exact foldl_extractRow mapping tag sheet.name _ acc

theorem admittedContact_some (mapping : Mapping) (tag : Bool) (name : String)
    (row : Option (List Cell)) (c : Contact)
    (h : admittedContact mapping tag name row = some c) :
    ∃ r, row = some r ∧ isBlank r = false ∧ c = buildContact mapping tag name r ∧
      admitted c = true := by
  cases row with
  | none => exact Option.noConfusion h
  | some r =>
    unfold admittedContact at h
    by_cases hb : isBlank r = true
    · simp [hb] at h
    · by_cases ha : admitted (buildContact mapping tag name r) = true
      · simp only [hb, ha, if_true, Bool.false_eq_true, if_false] at h
        have hc : buildContact mapping tag name r = c := Option.some.inj h
        exact ⟨r, rfl, by simpa using hb, hc.symm, hc ▸ ha⟩
      · simp [hb, ha] at h

theorem mem_extractSheet (mapping : Mapping) (h : Nat) (tag : Bool) (acc : List Contact)
    (sheet : Sheet) (c : Contact) (hc : c ∈ extractSheet mapping h tag acc sheet) :
    c ∈ acc ∨ ∃ r, isBlank r = false ∧ c = buildContact mapping tag sheet.name r ∧
      admitted c = true := by
  rw [extractSheet_eq, List.mem_append] at hc
  rcases hc with hc | hc
  · exact Or.inl hc
  · rw [List.mem_filterMap] at hc
    obtain ⟨row, _, hrow⟩ := hc
    obtain ⟨r, _, hb, hcr, ha⟩ := admittedContact_some mapping tag sheet.name row c hrow
    exact Or.inr ⟨r, hb, hcr, ha⟩

theorem admitted_iff (c : Contact) :
    admitted c = true ↔ c.fullName.truthy = true ∨ c.phones ≠ [] ∨ c.email.truthy = true := by
  unfold admitted
  cases c.phones <;> simp

/-- Every contact collected by the sheet loop is either already collected or built from a
non-blank row of a sheet and admitted. -/
theorem foldl_visitSheet_mem (st : AppState) (P : Contact → Prop)
    (hP : ∀ mapping name r, admitted (buildContact mapping st.useSheetAsTag name r) = true →
      P (buildContact mapping st.useSheetAsTag name r))
    (sheets : List Sheet) :
    ∀ acc : List Contact, (∀ c ∈ acc, P c) → ∀ c ∈ sheets.foldl (visitSheet st) acc, P c := by
  induction sheets with
  | nil => intro acc hacc c hc; exact hacc c hc
  | cons sh rest ih =>
    intro acc hacc
    rw [List.foldl_cons]
    apply ih
    intro c hc
    unfold visitSheet at hc
    by_cases hsel : (!(st.selectedSheets.contains sh.name)) = true
    · rw [if_pos hsel] at hc; exact hacc c hc
    · rw [if_neg hsel] at hc
      rcases mem_extractSheet _ _ _ _ _ _ hc with h | ⟨r, _, hcr, ha⟩
      · exact hacc c h
      · rw [hcr]; rw [hcr] at ha; exact hP _ _ _ ha

theorem pushPhone_eq (phones : List Phone) (slot : Option Nat) (row : List Cell)
    (label : String) :
    pushPhone phones slot row label = phones ++ phoneEntry row slot label := by
  cases slot with
  | none => simp [pushPhone, phoneEntry]
  | some i =>
    by_cases ht : (row[i]?.getD Cell.empty).truthy = true
    · simp [pushPhone, phoneEntry, cellAt, ht]
    · simp [pushPhone, phoneEntry, cellAt, ht]

theorem collectPhones_eq (mapping : Mapping) (row : List Cell) :
    collectPhones mapping row =
      phoneEntry row mapping.phone1 "TEL;TYPE=CELL" ++
        (phoneEntry row mapping.phone2 "TEL;TYPE=WORK" ++
          phoneEntry row mapping.phone3 "TEL;TYPE=HOME") := by
  unfold collectPhones
  simp only [pushPhone_eq, List.nil_append, List.append_assoc]

theorem mem_phoneEntry (row : List Cell) (slot : Option Nat) (label : String) (p : Phone) :
    p ∈ phoneEntry row slot label ↔
      ∃ i, slot = some i ∧ (row.getD i .empty).truthy = true ∧
        p = { type := label, value := row.getD i .empty } := by
  cases slot with
  | none => simp [phoneEntry]
  | some i =>
    by_cases ht : (row[i]?.getD Cell.empty).truthy = true
    · simp [phoneEntry, ht]
    · simp [phoneEntry, ht]

theorem phoneEntry_length (row : List Cell) (slot : Option Nat) (label : String) :
    (phoneEntry row slot label).length ≤ 1 := by
  cases slot with
  | none => simp [phoneEntry]
  | some i =>
    by_cases ht : (row[i]?.getD Cell.empty).truthy = true
    · simp [phoneEntry, ht]
    · simp [phoneEntry, ht]

theorem phoneEntry_types (row : List Cell) (slot : Option Nat) (label : String) :
    List.Sublist ((phoneEntry row slot label).map Phone.type) [label] := by
  cases slot with
  | none => simp [phoneEntry]
  | some i =>
    by_cases ht : (row[i]?.getD Cell.empty).truthy = true
    · simp [phoneEntry, ht]
    · simp [phoneEntry, ht]

theorem slotText_eq (row : List Cell) (slot : Option Nat) :
    (orEmpty (cellAt row slot)).toText = slotText row slot := by
  cases slot with
  | none => rfl
  | some j =>
    by_cases ht : (row[j]?.getD Cell.empty).truthy = true
    · simp [orEmpty, cellAt, slotText, ht]
    · simp [orEmpty, cellAt, slotText, ht, Cell.toText]

/-! ## Claims on the extractor -/

/-- C4: every contact the extraction loop admits, for one sheet with any mapping, header
row and tagging flag, and for the whole workbook state, has a non-empty `fullName`, or a
non-empty `phones` list, or a non-empty `email`; and a row whose contact has an empty
`fullName`, no phone and an empty `email` leaves `allContacts` unchanged, whatever its
organization, title and address. -/
theorem admission_invariant :
    (∀ (mapping : Mapping) (h : Nat) (tag : Bool) (sheet : Sheet) (c : Contact),
      c ∈ extractSheet mapping h tag [] sheet →
        c.fullName.truthy = true ∨ c.phones ≠ [] ∨ c.email.truthy = true) ∧
    (∀ (st : AppState) (c : Contact), c ∈ collectContacts st →
        c.fullName.truthy = true ∨ c.phones ≠ [] ∨ c.email.truthy = true) ∧
    (∀ (mapping : Mapping) (tag : Bool) (name : String) (acc : List Contact)
      (row : List Cell),
      (buildContact mapping tag name row).fullName.truthy = false →
      (buildContact mapping tag name row).phones = [] →
      (buildContact mapping tag name row).email.truthy = false →
        extractRow mapping tag name acc (some row) = acc) := by
  refine ⟨?_, ?_, ?_⟩
  · intro mapping h tag sheet c hc
    rcases mem_extractSheet mapping h tag [] sheet c hc with h0 | ⟨r, _, _, ha⟩
    · simp at h0
    · exact (admitted_iff c).1 ha
  · intro st c hc
    unfold collectContacts at hc
    refine foldl_visitSheet_mem st
      (fun c => c.fullName.truthy = true ∨ c.phones ≠ [] ∨ c.email.truthy = true)
      (fun mapping name r ha => (admitted_iff _).1 ha) st.sheets [] ?_ c hc
    intro c h0
    simp at h0
  · intro mapping tag name acc row hn hp he
    have hna : ¬ admitted (buildContact mapping tag name row) = true := by
      rw [admitted_iff]
      rintro (h | h | h)
      · rw [hn] at h; exact Bool.noConfusion h
      · exact h hp
      · rw [he] at h; exact Bool.noConfusion h
    rw [extractRow_eq]
    unfold admittedContact
    by_cases hb : isBlank row = true
    · simp [hb]
    · simp [hb, hna]

/-- C4, at a concrete row: with only `organization` mapped, the row `["ACME"]` has no
name, no phone and no email, and is not admitted. -/
theorem admission_invariant_witness :
    extractRow { organization := some 0 } true "Clients" [] (some [.str "ACME"]) = [] :=
  admission_invariant.2.2 { organization := some 0 } true "Clients" [] [.str "ACME"]
    (by decide) (by decide) (by decide)

/-- C5: the contacts a sheet adds to `allContacts` are the admitted contacts of the rows
at positions strictly greater than the header-row index `h`, in row order; rows at
positions up to `h` have no influence; a header-row index at or past the last row adds
nothing; and the sheet loop of `generateVCF` does this for a selected sheet whose stored
header-row index is `h`. -/
theorem extractSheet_rows_after_header (mapping : Mapping) (h : Nat) (tag : Bool)
    (acc : List Contact) (sheet : Sheet) :
    extractSheet mapping h tag acc sheet =
      acc ++ (sheet.data.drop (h + 1)).filterMap (admittedContact mapping tag sheet.name) ∧
    (∀ data : List (Option (List Cell)), data.drop (h + 1) = sheet.data.drop (h + 1) →
      extractSheet mapping h tag acc { sheet with data := data } =
        extractSheet mapping h tag acc sheet) ∧
    (sheet.data.length ≤ h + 1 → extractSheet mapping h tag acc sheet = acc) ∧
    (∀ st : AppState, st.selectedSheets.contains sheet.name = true →
      st.headerRows sheet.name = some h →
      visitSheet st acc sheet =
        acc ++ (sheet.data.drop (h + 1)).filterMap
          (admittedContact ((st.columnMapping sheet.name).getD {}) st.useSheetAsTag
            sheet.name)) := by
  refine ⟨extractSheet_eq mapping h tag acc sheet, ?_, ?_, ?_⟩
  · intro data hd
    rw [extractSheet_eq, extractSheet_eq, hd]
  · intro hlen
    rw [extractSheet_eq, List.drop_eq_nil_of_le hlen]
    simp
  · intro st hsel hh
    unfold visitSheet
    rw [hsel, hh]
    simp only [Bool.not_true, Bool.false_eq_true, if_false, Option.getD_some]
    exact extractSheet_eq _ h _ acc sheet

/-- C5, at a concrete sheet: with header row 1 of a three-row sheet only the third row
is read, and with header row 2 nothing is. -/
theorem extractSheet_rows_after_header_witness :
    extractSheet { fullName := some 0 } 1 false []
        { name := "S", data := [some [.str "Ann"], some [.str "Name"], some [.str "Bob"]] } =
      [buildContact { fullName := some 0 } false "S" [.str "Bob"]] ∧
    extractSheet { fullName := some 0 } 2 false []
        { name := "S", data := [some [.str "Ann"], some [.str "Name"], some [.str "Bob"]] } =
      [] :=
  ⟨by decide,
    (extractSheet_rows_after_header { fullName := some 0 } 2 false []
      { name := "S", data := [some [.str "Ann"], some [.str "Name"], some [.str "Bob"]] }).2.2.1
      (by decide)⟩

/-- C6: the `fullName` of the contact built from a row. When the `fullName` slot is bound
to column `i` it is the value of that cell, or the empty string when the cell is empty or
missing, whatever the `firstName` and `lastName` slots are; otherwise it is the trim of
the first-name text, a space and the last-name text, an unbound or empty sub-slot
contributing the empty string, hence the empty string when neither sub-slot is bound.
A non-blank row contributes to `allContacts` no contact other than this one. -/
theorem fullName_resolution (mapping : Mapping) (tag : Bool) (name : String)
    (row : List Cell) :
    (∀ i, mapping.fullName = some i →
      (buildContact mapping tag name row).fullName =
          (if (row.getD i .empty).truthy then row.getD i .empty else .str "") ∧
      ∀ f l : Option Nat,
        (buildContact { mapping with firstName := f, lastName := l } tag name row).fullName =
          (buildContact mapping tag name row).fullName) ∧
    (mapping.fullName = none →
      (buildContact mapping tag name row).fullName =
        .str (trim (slotText row mapping.firstName ++ " " ++ slotText row mapping.lastName))) ∧
    (mapping.fullName = none → mapping.firstName = none → mapping.lastName = none →
      (buildContact mapping tag name row).fullName = .str "") ∧
    (isBlank row = false → ∀ acc c, c ∈ extractRow mapping tag name acc (some row) →
      c ∈ acc ∨ c = buildContact mapping tag name row) := by
  refine ⟨?_, ?_, ?_, ?_⟩
  · intro i hi
    constructor
    · show resolveFullName mapping row = _
      unfold resolveFullName
      rw [hi]
      rfl
    · intro f l
      show resolveFullName _ row = resolveFullName mapping row
      unfold resolveFullName
      simp only [hi, Option.isSome_some, if_true]
  · intro hn
    show resolveFullName mapping row = _
    unfold resolveFullName
    rw [hn]
    simp only [Option.isSome_none, Bool.false_eq_true, if_false, slotText_eq]
  · intro hn hf hl
    show resolveFullName mapping row = _
    unfold resolveFullName
    rw [hn, hf, hl]
    have ht : trim ("" ++ " " ++ "") = "" := by decide
    exact congrArg Cell.str ht
  · intro hb acc c hc
    rw [extractRow_eq, List.mem_append] at hc
    rcases hc with hc | hc
    · exact Or.inl hc
    · right
      rw [Option.mem_toList] at hc
      obtain ⟨r, hr, _, hcr, _⟩ := admittedContact_some mapping tag name (some row) c hc
      cases hr
      exact hcr

/-- C6, at concrete rows: a bound `fullName` column wins over the name sub-slots, and
without it the two sub-slot texts are joined and trimmed. -/
theorem fullName_resolution_witness :
    (buildContact { fullName := some 2, firstName := some 0, lastName := some 1 } false "S"
        [.str "Jean", .str "Dupont", .str "J. Dupont"]).fullName = .str "J. Dupont" ∧
    (buildContact { firstName := some 0 } false "S" [.str "Jean"]).fullName = .str "Jean" :=
  ⟨((fullName_resolution { fullName := some 2, firstName := some 0, lastName := some 1 }
      false "S" [.str "Jean", .str "Dupont", .str "J. Dupont"]).1 2 rfl).1.trans (by decide),
    ((fullName_resolution { firstName := some 0 } false "S" [.str "Jean"]).2.1 rfl).trans
      (by decide)⟩

/-- C9: the `phones` list of the contact built from a row, for any mapping. It is the
entry of `phone1` labelled CELL, then that of `phone2` labelled WORK, then that of
`phone3` labelled HOME, each present exactly when its slot is bound and its cell is
non-empty and carrying the value of that cell; so it has at most three entries and its
labels form a subsequence of CELL, WORK, HOME whatever the column order. -/
theorem phones_by_slot (mapping : Mapping) (tag : Bool) (name : String) (row : List Cell) :
    (buildContact mapping tag name row).phones =
      phoneEntry row mapping.phone1 "TEL;TYPE=CELL" ++
        (phoneEntry row mapping.phone2 "TEL;TYPE=WORK" ++
          phoneEntry row mapping.phone3 "TEL;TYPE=HOME") ∧
    (buildContact mapping tag name row).phones.length ≤ 3 ∧
    List.Sublist ((buildContact mapping tag name row).phones.map Phone.type)
      ["TEL;TYPE=CELL", "TEL;TYPE=WORK", "TEL;TYPE=HOME"] ∧
    (∀ v : Cell, { type := "TEL;TYPE=CELL", value := v } ∈
        (buildContact mapping tag name row).phones ↔
      ∃ i, mapping.phone1 = some i ∧ (row.getD i .empty).truthy = true ∧
        v = row.getD i .empty) ∧
    (∀ v : Cell, { type := "TEL;TYPE=WORK", value := v } ∈
        (buildContact mapping tag name row).phones ↔
      ∃ i, mapping.phone2 = some i ∧ (row.getD i .empty).truthy = true ∧
        v = row.getD i .empty) ∧
    (∀ v : Cell, { type := "TEL;TYPE=HOME", value := v } ∈
        (buildContact mapping tag name row).phones ↔
      ∃ i, mapping.phone3 = some i ∧ (row.getD i .empty).truthy = true ∧
        v = row.getD i .empty) := by
  have hEq : (buildContact mapping tag name row).phones =
      phoneEntry row mapping.phone1 "TEL;TYPE=CELL" ++
        (phoneEntry row mapping.phone2 "TEL;TYPE=WORK" ++
          phoneEntry row mapping.phone3 "TEL;TYPE=HOME") := collectPhones_eq mapping row
  have hne : ∀ (a b : String) (v w : Cell), a ≠ b →
      ({ type := a, value := v } : Phone) ≠ { type := b, value := w } := by
    intro a b v w hab h
    exact hab (congrArg Phone.type h)
  refine ⟨hEq, ?_, ?_, ?_, ?_, ?_⟩
  · rw [hEq]
    have h1 := phoneEntry_length row mapping.phone1 "TEL;TYPE=CELL"
    have h2 := phoneEntry_length row mapping.phone2 "TEL;TYPE=WORK"
    have h3 := phoneEntry_length row mapping.phone3 "TEL;TYPE=HOME"
    simp only [List.length_append]
    omega
  · rw [hEq, List.map_append, List.map_append]
    exact ((phoneEntry_types row mapping.phone1 "TEL;TYPE=CELL").append
      ((phoneEntry_types row mapping.phone2 "TEL;TYPE=WORK").append
        (phoneEntry_types row mapping.phone3 "TEL;TYPE=HOME")))
  · intro v
    rw [hEq]
    simp only [List.mem_append, mem_phoneEntry]
    constructor
    · rintro (⟨i, hi, ht, hp⟩ | ⟨i, _, _, hp⟩ | ⟨i, _, _, hp⟩)
      · exact ⟨i, hi, ht, congrArg Phone.value hp⟩
      · exact absurd hp (hne _ _ _ _ (by decide))
      · exact absurd hp (hne _ _ _ _ (by decide))
    · rintro ⟨i, hi, ht, hv⟩
      exact Or.inl ⟨i, hi, ht, by rw [hv]⟩
  · intro v
    rw [hEq]
    simp only [List.mem_append, mem_phoneEntry]
    constructor
    · rintro (⟨i, _, _, hp⟩ | ⟨i, hi, ht, hp⟩ | ⟨i, _, _, hp⟩)
      · exact absurd hp (hne _ _ _ _ (by decide))
      · exact ⟨i, hi, ht, congrArg Phone.value hp⟩
      · exact absurd hp (hne _ _ _ _ (by decide))
    · rintro ⟨i, hi, ht, hv⟩
      exact Or.inr (Or.inl ⟨i, hi, ht, by rw [hv]⟩)
  · intro v
    rw [hEq]
    simp only [List.mem_append, mem_phoneEntry]
    constructor
    · rintro (⟨i, _, _, hp⟩ | ⟨i, _, _, hp⟩ | ⟨i, hi, ht, hp⟩)
      · exact absurd hp (hne _ _ _ _ (by decide))
      · exact absurd hp (hne _ _ _ _ (by decide))
      · exact ⟨i, hi, ht, congrArg Phone.value hp⟩
    · rintro ⟨i, hi, ht, hv⟩
      exact Or.inr (Or.inr ⟨i, hi, ht, by rw [hv]⟩)

/-- C9, at a concrete row: with `phone1` bound to the second column and `phone2` to the
first, the entries still come in slot order, CELL before WORK. -/
theorem phones_by_slot_witness :
    (buildContact { phone1 := some 1, phone2 := some 0 } false "S"
        [.str "0102", .str "0607"]).phones =
      [{ type := "TEL;TYPE=CELL", value := .str "0607" },
        { type := "TEL;TYPE=WORK", value := .str "0102" }] :=
  (phones_by_slot { phone1 := some 1, phone2 := some 0 } false "S"
    [.str "0102", .str "0607"]).1.trans (by decide)

/-! ## Lemmas on the serialiser -/

theorem append_if (b : Bool) (v x : String) :
    (if b = true then v ++ x else v) = v ++ (if b = true then x else "") := by
  cases b <;> simp

theorem foldl_appendPhone (phones : List Phone) :
    ∀ v : String, phones.foldl appendPhone v = v ++ concatAll (phones.map phoneLine) := by
  induction phones with
  | nil => intro v; simp [concatAll]
  | cons p ps ih =>
    intro v
    rw [List.foldl_cons, ih, List.map_cons, concatAll, appendPhone, phoneLine,
      String.append_assoc]

theorem categoriesLine_eq (c : Contact) :
    categoriesLine c =
      if categoriesSet c.categories = true then
        "CATEGORIES:" ++ categoriesText c.categories ++ "\n"
      else "" := by
  unfold categoriesLine
  cases hc : c.categories with
  | none => simp [categoriesSet]
  | some s =>
    by_cases hs : s.data.isEmpty = true
    · simp [categoriesSet, hs]
    · simp [categoriesSet, categoriesText, hs]

theorem appendCard_eq (v : String) (c : Contact) : appendCard v c = v ++ cardText c := by
  have hEnd : "END:VCARD\n" ++ "\n" = "END:VCARD\n\n" := by decide
  unfold appendCard
  simp -zeta only [append_if, foldl_appendPhone]
  rw [cardText, cardBody, nameLines, categoriesLine_eq]
  simp only [optionalLine, String.append_assoc, hEnd]
  by_cases h : c.fullName.truthy = true
  · simp only [h, if_true, String.append_assoc]
  · simp only [h, Bool.false_eq_true, if_false, String.append_assoc, String.empty_append]

theorem foldl_appendCard (cs : List Contact) :
    ∀ v : String, cs.foldl appendCard v = v ++ concatAll (cs.map cardText) := by
  induction cs with
  | nil => intro v; simp [concatAll]
  | cons c rest ih =>
    intro v
    rw [List.foldl_cons, ih, appendCard_eq, List.map_cons, concatAll, String.append_assoc]

theorem endsNewline_append (a b : String) (ha : ∃ y, a = y ++ "\n")
    (hb : b = "" ∨ ∃ y, b = y ++ "\n") : ∃ y, a ++ b = y ++ "\n" := by
  rcases hb with hb | ⟨y, hy⟩
  · obtain ⟨y, hy⟩ := ha
    exact ⟨y, by rw [hb, String.append_empty, hy]⟩
  · exact ⟨a ++ y, by rw [hy, String.append_assoc]⟩

theorem optionalLine_newline (pre : String) (v : Cell) (post : String) :
    optionalLine pre v (post ++ "\n") = "" ∨
      ∃ y, optionalLine pre v (post ++ "\n") = y ++ "\n" := by
  unfold optionalLine
  by_cases h : v.truthy = true
  · right
    rw [if_pos h]
    exact ⟨pre ++ v.toText ++ post, by rw [String.append_assoc (pre ++ v.toText)]⟩
  · left
    rw [if_neg h]

theorem phoneLines_newline (phones : List Phone) :
    concatAll (phones.map phoneLine) = "" ∨
      ∃ y, concatAll (phones.map phoneLine) = y ++ "\n" := by
  induction phones with
  | nil => left; rfl
  | cons p ps ih =>
    right
    rw [List.map_cons, concatAll]
    exact endsNewline_append _ _ ⟨p.type ++ ":" ++ p.value.toText, rfl⟩ ih

/-- The version line followed by the body of a card ends with a newline: whatever
follows the body starts a line. -/
theorem body_ends_line (c : Contact) : ∃ y, "VERSION:3.0\n" ++ cardBody c = y ++ "\n" := by
  have h0 : ∃ y, "VERSION:3.0\n" = y ++ "\n" := ⟨"VERSION:3.0", by decide⟩
  have hn : nameLines c = "" ∨ ∃ y, nameLines c = y ++ "\n" := by
    unfold nameLines
    by_cases h : c.fullName.truthy = true
    · right
      rw [if_pos h]
      have hs : (";;;;\n" : String) = ";;;;" ++ "\n" := by decide
      refine ⟨"FN:" ++ c.fullName.toText ++ "\n" ++ ("N:" ++ c.fullName.toText ++ ";;;;"), ?_⟩
      rw [hs]
      simp only [String.append_assoc]
    · left
      rw [if_neg h]
  have hadr : (";;;;\n" : String) = ";;;;" ++ "\n" := by decide
  have he := optionalLine_newline "EMAIL:" c.email ""
  have ho := optionalLine_newline "ORG:" c.organization ""
  have ht := optionalLine_newline "TITLE:" c.title ""
  have ha := optionalLine_newline "ADR:;;" c.address ";;;;"
  rw [String.empty_append] at he ho ht
  rw [← hadr] at ha
  unfold cardBody
  have h1 := endsNewline_append _ _ h0 hn
  have h2 := endsNewline_append _ _ h1 (phoneLines_newline c.phones)
  have h3 := endsNewline_append _ _ h2 he
  have h4 := endsNewline_append _ _ h3 ho
  have h5 := endsNewline_append _ _ h4 ht
  have h6 := endsNewline_append _ _ h5 ha
  simp only [String.append_assoc] at h6 ⊢
  exact h6

/-! ## Claims on the serialiser and on the whole pipeline -/

/-- C7: the text built by the serialisation loop is the concatenation, in input order,
of one card per contact, each card being the begin line, the version line, the two name
lines when `fullName` is non-empty, one line per phone in the contact's phone order, the
EMAIL, ORG, TITLE, ADR and CATEGORIES lines each only when its field is non-empty, and
the end line followed by a blank line; `generateVCF` builds this text from the contacts
it collects. -/
theorem serialize_cards (cs : List Contact) :
    serialize cs = concatAll (cs.map cardText) ∧
    (∀ st : AppState, generateVCF st = concatAll ((collectContacts st).map cardText)) := by
  constructor
  · unfold serialize
    rw [foldl_appendCard, String.empty_append]
  · intro st
    unfold generateVCF serialize
    rw [foldl_appendCard, String.empty_append]

/-- C8, as stated, fails for the empty sheet name: with tagging enabled the contact of
the sheet named `""` is admitted and carries the category `""`, and its card has no
CATEGORIES line. -/
theorem categories_line_missing_for_empty_name :
    extractSheet { fullName := some 0 } 0 true []
        { name := "", data := [some [.str "Nom complet"], some [.str "Jean"]] } =
      [{ fullName := .str "Jean", phones := [], email := .str "", organization := .str "",
         title := .str "", address := .str "", categories := some "" }] ∧
    serialize (extractSheet { fullName := some 0 } 0 true []
        { name := "", data := [some [.str "Nom complet"], some [.str "Jean"]] }) =
      "BEGIN:VCARD\nVERSION:3.0\nFN:Jean\nN:Jean;;;;\nEND:VCARD\n\n" ∧
    includes (serialize (extractSheet { fullName := some 0 } 0 true []
        { name := "", data := [some [.str "Nom complet"], some [.str "Jean"]] }))
      ("CATEGORIES:" ++ "") = false := by
  decide

/-- C8, amended: with tagging enabled every admitted contact of a sheet carries the
sheet name as category, and when the sheet name is non-empty its card is the begin and
version lines, the body lines, the line `CATEGORIES:` followed by the sheet name, and
the end line; with tagging disabled no admitted contact carries a category and its card
is the begin and version lines, the body lines and the end line, with no CATEGORIES
line. In both cases what follows the body starts a line. -/
theorem categories_tagging (mapping : Mapping) (h : Nat) (sheet : Sheet) :
    (∀ c ∈ extractSheet mapping h true [] sheet, c.categories = some sheet.name) ∧
    (sheet.name ≠ "" → ∀ c ∈ extractSheet mapping h true [] sheet, ∀ v : String,
      appendCard v c =
        v ++ ("BEGIN:VCARD\n" ++ ("VERSION:3.0\n" ++ cardBody c)) ++
          ("CATEGORIES:" ++ sheet.name ++ "\n") ++ "END:VCARD\n\n") ∧
    (∀ c ∈ extractSheet mapping h false [] sheet,
      c.categories = none ∧ ∀ v : String,
        appendCard v c =
          v ++ ("BEGIN:VCARD\n" ++ ("VERSION:3.0\n" ++ cardBody c)) ++ "END:VCARD\n\n") ∧
    (∀ c : Contact, ∃ y, "VERSION:3.0\n" ++ cardBody c = y ++ "\n") := by
  have hEnd : "END:VCARD\n" ++ "\n" = "END:VCARD\n\n" := by decide
  have hcat : ∀ (tag : Bool) (c : Contact), c ∈ extractSheet mapping h tag [] sheet →
      c.categories = if tag = true then some sheet.name else none := by
    intro tag c hc
    rcases mem_extractSheet mapping h tag [] sheet c hc with h0 | ⟨r, _, hcr, _⟩
    · simp at h0
    · rw [hcr]; rfl
  refine ⟨fun c hc => hcat true c hc, ?_, ?_, body_ends_line⟩
  · intro hname c hc v
    have hc' : c.categories = some sheet.name := hcat true c hc
    have hd : sheet.name.data.isEmpty = false := by
      cases hdata : sheet.name.data with
      | nil => exact absurd (String.ext hdata) hname
      | cons a as => rfl
    rw [appendCard_eq, cardText, categoriesLine, hc']
    simp only [hd, Bool.false_eq_true, if_false, String.append_assoc, hEnd]
  · intro c hc
    have hc' : c.categories = none := hcat false c hc
    refine ⟨hc', fun v => ?_⟩
    rw [appendCard_eq, cardText, categoriesLine, hc']
    simp only [String.append_assoc, String.append_empty, String.empty_append, hEnd]

/-- C8, at the sheet `Clients`: with tagging enabled the card of its contact ends with
the line `CATEGORIES:Clients` and the end line. -/
theorem categories_tagging_witness :
    serialize (extractSheet { fullName := some 0 } 0 true []
        { name := "Clients", data := [some [.str "Nom complet"], some [.str "Jean"]] }) =
      "BEGIN:VCARD\nVERSION:3.0\nFN:Jean\nN:Jean;;;;\nCATEGORIES:Clients\nEND:VCARD\n\n" :=
  ((categories_tagging { fullName := some 0 } 0
      { name := "Clients", data := [some [.str "Nom complet"], some [.str "Jean"]] }).2.1
    (by decide)
    { fullName := .str "Jean", phones := [], email := .str "", organization := .str "",
      title := .str "", address := .str "", categories := some "Clients" }
    (by decide) "").trans (by decide)

/-- C10: the end-to-end scenario. The header row `["Prénom", "Nom", "Mobile", "Email"]`
is classified as `{firstName: 0, lastName: 1, phone1: 2, email: 3}` with no other slot
bound; with that mapping, header row 0 and tagging disabled, the data row
`["Jean", "Dupont", "0601020304", "jean@x.com"]` yields exactly one contact, with
`fullName` "Jean Dupont", one CELL phone "0601020304" and `email` "jean@x.com"; and the
generated text is exactly the card of the claim. -/
theorem scenario_jean_dupont :
    detectColumnMapping [.str "Prénom", .str "Nom", .str "Mobile", .str "Email"] =
      { firstName := some 0, lastName := some 1, phone1 := some 2, email := some 3 } ∧
    collectContacts
        { sheets := [{ name := "Feuil1",
                       data := [some [.str "Prénom", .str "Nom", .str "Mobile", .str "Email"],
                         some [.str "Jean", .str "Dupont", .str "0601020304",
                           .str "jean@x.com"]] }]
          selectedSheets := ["Feuil1"]
          columnMapping := fun _ =>
            some (detectColumnMapping [.str "Prénom", .str "Nom", .str "Mobile", .str "Email"])
          headerRows := fun _ => some 0
          useSheetAsTag := false } =
      [{ fullName := .str "Jean Dupont"
         phones := [{ type := "TEL;TYPE=CELL", value := .str "0601020304" }]
         email := .str "jean@x.com"
         organization := .str ""
         title := .str ""
         address := .str ""
         categories := none }] ∧
    generateVCF
        { sheets := [{ name := "Feuil1",
                       data := [some [.str "Prénom", .str "Nom", .str "Mobile", .str "Email"],
                         some [.str "Jean", .str "Dupont", .str "0601020304",
                           .str "jean@x.com"]] }]
          selectedSheets := ["Feuil1"]
          columnMapping := fun _ =>
            some (detectColumnMapping [.str "Prénom", .str "Nom", .str "Mobile", .str "Email"])
          headerRows := fun _ => some 0
          useSheetAsTag := false } =
      "BEGIN:VCARD\nVERSION:3.0\nFN:Jean Dupont\nN:Jean Dupont;;;;\nTEL;TYPE=CELL:0601020304\nEMAIL:jean@x.com\nEND:VCARD\n\n" := by
  decide

/-! ## The full-name slot -/

theorem includes_of_prefix (s k k0 : String) (hp : k0.data <+: k.data)
    (h : includes s k = true) : includes s k0 = true := by
  unfold includes at h ⊢
  rw [List.any_eq_true] at h ⊢
  obtain ⟨t, ht, hk⟩ := h
  refine ⟨t, ht, ?_⟩
  rw [List.isPrefixOf_iff_prefix] at hk ⊢
  exact hp.trans hk

theorem includes_nom_of_nom_complet (l : String) (h : includes l "nom complet" = true) :
    includes l "nom" = true :=
  includes_of_prefix l "nom complet" "nom" (by decide) h

theorem isLastName_of_nom (l : String) (h : includes l "nom" = true) :
    isLastName l = true := by
  unfold isLastName
  rw [h]
  rfl

theorem bindPhone_fullName (m : Mapping) (n : Nat) : (bindPhone m n).fullName = m.fullName := by
  unfold bindPhone
  cases notSet m.phone1 <;> cases notSet m.phone2 <;> cases notSet m.phone3 <;> rfl

/-- A header whose lower-cased text contains 'nom' is assigned to `firstName` or to
`lastName` by the callback, whatever the mapping so far. -/
theorem classifyHeader_nom (m : Mapping) (x : Cell) (n : Nat)
    (hnom : includes (lowerHeader x) "nom" = true) :
    classifyHeader m x n = m.set .firstName n ∨ classifyHeader m x n = m.set .lastName n := by
  show (if isFirstName (lowerHeader x) = true then _ else _ : Mapping) = m.set .firstName n ∨
    (if isFirstName (lowerHeader x) = true then _ else _ : Mapping) = m.set .lastName n
  by_cases h1 : isFirstName (lowerHeader x) = true
  · rw [if_pos h1]; exact Or.inl rfl
  · rw [if_neg h1, if_pos (isLastName_of_nom _ hnom)]; exact Or.inr rfl

/-- The callback changes `fullName` only at a header that contains 'full' and 'name' and
does not contain 'nom'. -/
theorem classifyHeader_fullName (m : Mapping) (x : Cell) (n : Nat) :
    (classifyHeader m x n).fullName = m.fullName ∨
      ((classifyHeader m x n).fullName = some n ∧
        includes (lowerHeader x) "full" = true ∧ includes (lowerHeader x) "name" = true ∧
        includes (lowerHeader x) "nom" = false) := by
  show (if isFirstName (lowerHeader x) = true then _ else _ : Mapping).fullName = m.fullName ∨
    ((if isFirstName (lowerHeader x) = true then _ else _ : Mapping).fullName = some n ∧ _)
  by_cases h1 : isFirstName (lowerHeader x) = true
  · rw [if_pos h1]; exact Or.inl rfl
  rw [if_neg h1]
  by_cases h2 : isLastName (lowerHeader x) = true
  · rw [if_pos h2]; exact Or.inl rfl
  rw [if_neg h2]
  have hnom : includes (lowerHeader x) "nom" = false := by
    cases h : includes (lowerHeader x) "nom" with
    | false => rfl
    | true => exact absurd (isLastName_of_nom _ h) h2
  have hnc : includes (lowerHeader x) "nom complet" = false := by
    cases h : includes (lowerHeader x) "nom complet" with
    | false => rfl
    | true =>
      rw [includes_nom_of_nom_complet _ h] at hnom
      exact Bool.noConfusion hnom
  by_cases h3 : isFullName (lowerHeader x) = true
  · rw [if_pos h3]
    right
    unfold isFullName at h3
    rw [hnc, Bool.false_or, Bool.and_eq_true] at h3
    exact ⟨rfl, h3.1, h3.2, hnom⟩
  rw [if_neg h3]
  have h4 : ¬ (includes (lowerHeader x) "nom" && notSet m.firstName && notSet m.lastName) =
      true := by
    rw [hnom]
    exact fun h => Bool.noConfusion h
  rw [if_neg h4]
  left
  by_cases h5 : isPhone (lowerHeader x) = true
  · rw [if_pos h5]; exact bindPhone_fullName m n
  rw [if_neg h5]
  by_cases h6 : isEmail (lowerHeader x) = true
  · rw [if_pos h6]
  rw [if_neg h6]
  by_cases h7 : isOrganization (lowerHeader x) = true
  · rw [if_pos h7]
  rw [if_neg h7]
  by_cases h8 : isTitle (lowerHeader x) = true
  · rw [if_pos h8]
  rw [if_neg h8]
  by_cases h9 : isAddress (lowerHeader x) = true
  · rw [if_pos h9]
  rw [if_neg h9]

theorem classifyHeader_eq_live (m : Mapping) (x : Cell) (n : Nat) :
    classifyHeader m x n = classifyHeaderLive m x n := by
  show (if isFirstName (lowerHeader x) = true then _ else _ : Mapping) =
    (if isFirstName (lowerHeader x) = true then _ else _ : Mapping)
  by_cases h1 : isFirstName (lowerHeader x) = true
  · rw [if_pos h1, if_pos h1]
  rw [if_neg h1, if_neg h1]
  by_cases h2 : isLastName (lowerHeader x) = true
  · rw [if_pos h2, if_pos h2]
  rw [if_neg h2, if_neg h2]
  have hnom : includes (lowerHeader x) "nom" = false := by
    cases h : includes (lowerHeader x) "nom" with
    | false => rfl
    | true => exact absurd (isLastName_of_nom _ h) h2
  have hnc : includes (lowerHeader x) "nom complet" = false := by
    cases h : includes (lowerHeader x) "nom complet" with
    | false => rfl
    | true =>
      rw [includes_nom_of_nom_complet _ h] at hnom
      exact Bool.noConfusion hnom
  have hfull : isFullName (lowerHeader x) =
      (includes (lowerHeader x) "full" && includes (lowerHeader x) "name") := by
    unfold isFullName
    rw [hnc, Bool.false_or]
  rw [hfull]
  by_cases h3 : (includes (lowerHeader x) "full" && includes (lowerHeader x) "name") = true
  · rw [if_pos h3, if_pos h3]
  rw [if_neg h3, if_neg h3]
  have h4 : ¬ (includes (lowerHeader x) "nom" && notSet m.firstName && notSet m.lastName) =
      true := by
    rw [hnom]
    exact fun h => Bool.noConfusion h
  rw [if_neg h4]

/-- In the returned mapping a column whose header contains 'nom' is the value of no slot
other than `firstName` and `lastName`. -/
theorem detect_nom_slots (headers : List Cell) :
    ∀ s j c, (detectColumnMapping headers).get s = some j → headers[j]? = some c →
      includes (lowerHeader c) "nom" = true → s = .firstName ∨ s = .lastName := by
  induction headers using List.reverseRecOn with
  | nil =>
    intro s j c hs
    cases s <;> exact Option.noConfusion hs
  | append_singleton l x ih =>
    intro s j c hs hc hnom
    have hbound := (detect_bound_and_distinct l).1
    rw [detectColumnMapping_snoc] at hs
    rw [getElem?_snoc] at hc
    by_cases hj : j < l.length
    · rw [if_pos hj] at hc
      rcases classifyHeader_cases (detectColumnMapping l) x l.length with h | ⟨u, h⟩
      · rw [h] at hs
        exact ih s j c hs hc hnom
      · rw [h, Mapping.get_set] at hs
        by_cases hsu : s = u
        · rw [if_pos hsu] at hs
          have : l.length = j := Option.some.inj hs
          omega
        · rw [if_neg hsu] at hs
          exact ih s j c hs hc hnom
    · rw [if_neg hj] at hc
      by_cases hj2 : j = l.length
      · rw [if_pos hj2] at hc
        have hxc : x = c := Option.some.inj hc
        subst hxc
        subst hj2
        rcases classifyHeader_nom (detectColumnMapping l) x l.length hnom with h | h
        · rw [h, Mapping.get_set] at hs
          by_cases hsu : s = .firstName
          · exact Or.inl hsu
          · rw [if_neg hsu] at hs
            exact absurd (hbound s _ hs) (Nat.lt_irrefl _)
        · rw [h, Mapping.get_set] at hs
          by_cases hsu : s = .lastName
          · exact Or.inr hsu
          · rw [if_neg hsu] at hs
            exact absurd (hbound s _ hs) (Nat.lt_irrefl _)
      · rw [if_neg hj2] at hc
        exact Option.noConfusion hc

theorem detect_fullName_source (headers : List Cell) :
    ∀ i, (detectColumnMapping headers).fullName = some i →
      ∃ c, headers[i]? = some c ∧ includes (lowerHeader c) "full" = true ∧
        includes (lowerHeader c) "name" = true ∧ includes (lowerHeader c) "nom" = false := by
  induction headers using List.reverseRecOn with
  | nil => intro i h; exact Option.noConfusion h
  | append_singleton l x ih =>
    intro i h
    rw [detectColumnMapping_snoc] at h
    rcases classifyHeader_fullName (detectColumnMapping l) x l.length with hk | ⟨hn, hf, hna, hno⟩
    · rw [hk] at h
      obtain ⟨c, hc, hprops⟩ := ih i h
      have hi : i < l.length := by
        by_contra hge
        rw [List.getElem?_eq_none (by omega)] at hc
        exact Option.noConfusion hc
      exact ⟨c, by rw [getElem?_snoc, if_pos hi]; exact hc, hprops⟩
    · rw [hn] at h
      have hi : l.length = i := Option.some.inj h
      subst hi
      exact ⟨x, by rw [getElem?_snoc, if_neg (Nat.lt_irrefl _), if_pos rfl], hf, hna, hno⟩

theorem bindPhone_lastName (m : Mapping) (n : Nat) : (bindPhone m n).lastName = m.lastName := by
  unfold bindPhone
  cases notSet m.phone1 <;> cases notSet m.phone2 <;> cases notSet m.phone3 <;> rfl

theorem classifyHeader_lastName (m : Mapping) (x : Cell) (n : Nat) :
    (classifyHeader m x n).lastName =
      if takesLastName x = true then some n else m.lastName := by
  unfold takesLastName
  show (if isFirstName (lowerHeader x) = true then _ else _ : Mapping).lastName = _
  by_cases h1 : isFirstName (lowerHeader x) = true
  · rw [if_pos h1, h1]; rfl
  rw [if_neg h1]
  have h1f : isFirstName (lowerHeader x) = false := by simpa using h1
  by_cases h2 : isLastName (lowerHeader x) = true
  · rw [if_pos h2, h1f, h2]; rfl
  rw [if_neg h2]
  have h2f : isLastName (lowerHeader x) = false := by simpa using h2
  have hcond : ¬ ((!isFirstName (lowerHeader x) && isLastName (lowerHeader x)) = true) := by
    rw [h2f, Bool.and_false]
    exact fun h => Bool.noConfusion h
  rw [if_neg hcond]
  by_cases h3 : isFullName (lowerHeader x) = true
  · rw [if_pos h3]
  rw [if_neg h3]
  by_cases h4 : (includes (lowerHeader x) "nom" && notSet m.firstName && notSet m.lastName) = true
  · rw [if_pos h4]
  rw [if_neg h4]
  by_cases h5 : isPhone (lowerHeader x) = true
  · rw [if_pos h5]; exact bindPhone_lastName m n
  rw [if_neg h5]
  by_cases h6 : isEmail (lowerHeader x) = true
  · rw [if_pos h6]
  rw [if_neg h6]
  by_cases h7 : isOrganization (lowerHeader x) = true
  · rw [if_pos h7]
  rw [if_neg h7]
  by_cases h8 : isTitle (lowerHeader x) = true
  · rw [if_pos h8]
  rw [if_neg h8]
  by_cases h9 : isAddress (lowerHeader x) = true
  · rw [if_pos h9]
  rw [if_neg h9]

/-- A slot that the callback assigns at every header satisfying `p`, and only there, is
bound in the returned mapping to the rightmost column whose header satisfies `p`. -/
theorem detect_field_rightmost (f : Mapping → Option Nat) (p : Cell → Bool)
    (hf0 : f {} = none)
    (hstep : ∀ m x n, f (classifyHeader m x n) = if p x = true then some n else f m)
    (headers : List Cell) (i : Nat) :
    f (detectColumnMapping headers) = some i ↔
      (∃ c, headers[i]? = some c ∧ p c = true) ∧
      (∀ j c, i < j → headers[j]? = some c → p c = false) := by
  induction headers using List.reverseRecOn with
  | nil =>
    rw [detectColumnMapping_nil, hf0]
    constructor
    · intro h; exact Option.noConfusion h
    · rintro ⟨⟨c, hc, _⟩, _⟩; simp at hc
  | append_singleton l x ih =>
    rw [detectColumnMapping_snoc, hstep]
    by_cases hx : p x = true
    · rw [if_pos hx]
      constructor
      · intro h
        have hi : l.length = i := Option.some.inj h
        subst hi
        refine ⟨⟨x, by simp [getElem?_snoc], hx⟩, ?_⟩
        intro j c hj hc
        rw [getElem?_snoc, if_neg (by omega), if_neg (by omega)] at hc
        exact Option.noConfusion hc
      · rintro ⟨⟨c, hc, hp⟩, hlast⟩
        rw [getElem?_snoc] at hc
        by_cases h1 : i < l.length
        · have := hlast l.length x h1 (by simp [getElem?_snoc])
          rw [hx] at this
          exact Bool.noConfusion this
        · rw [if_neg h1] at hc
          by_cases h2 : i = l.length
          · rw [h2]
          · rw [if_neg h2] at hc
            exact Option.noConfusion hc
    · rw [if_neg hx, ih]
      have hx' : p x = false := by simpa using hx
      constructor
      · rintro ⟨⟨c, hc, hp⟩, hlast⟩
        have hi : i < l.length := by
          by_contra hge
          rw [List.getElem?_eq_none (by omega)] at hc
          exact Option.noConfusion hc
        refine ⟨⟨c, by rw [getElem?_snoc, if_pos hi]; exact hc, hp⟩, ?_⟩
        intro j d hj hd
        rw [getElem?_snoc] at hd
        by_cases h1 : j < l.length
        · rw [if_pos h1] at hd; exact hlast j d hj hd
        · rw [if_neg h1] at hd
          by_cases h2 : j = l.length
          · rw [if_pos h2] at hd
            cases hd
            exact hx'
          · rw [if_neg h2] at hd
            exact Option.noConfusion hd
      · rintro ⟨⟨c, hc, hp⟩, hlast⟩
        rw [getElem?_snoc] at hc
        by_cases h1 : i < l.length
        · rw [if_pos h1] at hc
          refine ⟨⟨c, hc, hp⟩, ?_⟩
          intro j d hj hd
          have hjl : j < l.length := by
            by_contra hge
            rw [List.getElem?_eq_none (by omega)] at hd
            exact Option.noConfusion hd
          exact hlast j d hj (by rw [getElem?_snoc, if_pos hjl]; exact hd)
        · rw [if_neg h1] at hc
          by_cases h2 : i = l.length
          · rw [if_pos h2] at hc
            cases hc
            rw [hp] at hx'
            exact Bool.noConfusion hx'
          · rw [if_neg h2] at hc
            exact Option.noConfusion hc

/-- When a header containing 'nom' is still bound in the returned mapping: a header that
matches the first-name predicate holds `firstName` exactly when no header to its right
matches it, and any other header containing 'nom' holds `lastName` exactly when no header
to its right reaches the assignment of line 71. -/
theorem detect_nom_bound_iff (headers : List Cell) (j : Nat) (c : Cell)
    (hc : headers[j]? = some c) (hnom : includes (lowerHeader c) "nom" = true) :
    (isFirstName (lowerHeader c) = true →
      ((detectColumnMapping headers).firstName = some j ↔
        ∀ k d, j < k → headers[k]? = some d → isFirstName (lowerHeader d) = false)) ∧
    (isFirstName (lowerHeader c) = false →
      ((detectColumnMapping headers).lastName = some j ↔
        ∀ k d, j < k → headers[k]? = some d → takesLastName d = false)) := by
  constructor
  · intro hfirst
    rw [detect_field_rightmost Mapping.firstName (fun x => isFirstName (lowerHeader x)) rfl
      classifyHeader_firstName headers j]
    constructor
    · exact fun h => h.2
    · exact fun h => ⟨⟨c, hc, hfirst⟩, h⟩
  · intro hfirst
    rw [detect_field_rightmost Mapping.lastName takesLastName rfl
      classifyHeader_lastName headers j]
    constructor
    · exact fun h => h.2
    · intro h
      refine ⟨⟨c, hc, ?_⟩, h⟩
      unfold takesLastName
      rw [hfirst, isLastName_of_nom _ hnom]
      rfl

/-- C11, as stated, fails: in the header rows `["Nom", "Nom 2"]` and
`["Nom complet", "Nom"]` the header of column 0 contains 'nom', yet the returned mapping
is `{lastName: 1}` and column 0 is bound neither to `firstName` nor to `lastName`. -/
theorem nom_header_rebound :
    includes (lowerHeader (.str "Nom")) "nom" = true ∧
    detectColumnMapping [.str "Nom", .str "Nom 2"] = { lastName := some 1 } ∧
    (detectColumnMapping [.str "Nom", .str "Nom 2"]).firstName ≠ some 0 ∧
    (detectColumnMapping [.str "Nom", .str "Nom 2"]).lastName ≠ some 0 ∧
    includes (lowerHeader (.str "Nom complet")) "nom" = true ∧
    detectColumnMapping [.str "Nom complet", .str "Nom"] = { lastName := some 1 } ∧
    (detectColumnMapping [.str "Nom complet", .str "Nom"]).firstName ≠ some 0 ∧
    (detectColumnMapping [.str "Nom complet", .str "Nom"]).lastName ≠ some 0 := by
  decide

/-- C11, amended: if `detectColumnMapping` binds `fullName` to column `i`, the
lower-cased header of column `i` contains 'full' and 'name' and does not contain 'nom'.
A header whose lower-cased text contains 'nom' ('Nom complet' included) is assigned to
`firstName` or `lastName` when the classifier reads it, is the value of no other slot
in the returned mapping, and is never the value of `fullName`; in the returned mapping
it still holds its slot exactly when no header to its right takes the same assignment,
since a later match re-binds the slot. The keyword 'nom complet' and the generic-'nom'
branch never bind a slot: a header that gets past the first two tests contains neither
'nom complet' nor 'nom', and the classifier is equal to the one without these two
parts. -/
theorem fullName_only_from_full_and_name (headers : List Cell) :
    (∀ i, (detectColumnMapping headers).fullName = some i →
      ∃ c, headers[i]? = some c ∧ includes (lowerHeader c) "full" = true ∧
        includes (lowerHeader c) "name" = true ∧ includes (lowerHeader c) "nom" = false) ∧
    (∀ j c, headers[j]? = some c → includes (lowerHeader c) "nom" = true →
      (detectColumnMapping headers).fullName ≠ some j ∧
      (∀ s, (detectColumnMapping headers).get s = some j → s = .firstName ∨ s = .lastName) ∧
      (∀ m : Mapping, classifyHeader m c j = m.set .firstName j ∨
        classifyHeader m c j = m.set .lastName j)) ∧
    (∀ l : String, isFirstName l = false → isLastName l = false →
      includes l "nom complet" = false ∧ includes l "nom" = false) ∧
    (∀ (m : Mapping) (c : Cell) (n : Nat), classifyHeader m c n = classifyHeaderLive m c n) ∧
    detectColumnMapping headers = forEachFrom classifyHeaderLive {} headers 0 ∧
    (∀ j c, headers[j]? = some c → includes (lowerHeader c) "nom" = true →
      (isFirstName (lowerHeader c) = true →
        ((detectColumnMapping headers).firstName = some j ↔
          ∀ k d, j < k → headers[k]? = some d → isFirstName (lowerHeader d) = false)) ∧
      (isFirstName (lowerHeader c) = false →
        ((detectColumnMapping headers).lastName = some j ↔
          ∀ k d, j < k → headers[k]? = some d → takesLastName d = false))) := by
  refine ⟨detect_fullName_source headers, ?_, ?_, classifyHeader_eq_live, ?_,
    fun j c hc hnom => detect_nom_bound_iff headers j c hc hnom⟩
  · intro j c hc hnom
    refine ⟨?_, fun s hs => detect_nom_slots headers s j c hs hc hnom,
      fun m => classifyHeader_nom m c j hnom⟩
    intro hfull
    obtain ⟨d, hd, _, _, hno⟩ := detect_fullName_source headers j hfull
    rw [hc] at hd
    cases hd
    rw [hnom] at hno
    exact Bool.noConfusion hno
  · intro l _ h2
    have hnom : includes l "nom" = false := by
      cases h : includes l "nom" with
      | false => rfl
      | true =>
        rw [isLastName_of_nom l h] at h2
        exact Bool.noConfusion h2
    refine ⟨?_, hnom⟩
    cases h : includes l "nom complet" with
    | false => rfl
    | true =>
      rw [includes_nom_of_nom_complet l h] at hnom
      exact Bool.noConfusion hnom
  · unfold detectColumnMapping
    have hfun : classifyHeader = classifyHeaderLive := by
      funext m c n
      exact classifyHeader_eq_live m c n
    rw [hfun]

/-- C11, amended, at the header row `["Nom complet", "Full Name", "Nom"]`: `fullName` is
bound to the column of 'Full Name'; 'Nom complet' is not the value of `fullName`; and
since the header 'Nom' to its right takes the `lastName` assignment, 'Nom complet' does
not hold `lastName` in the returned mapping. -/
theorem fullName_only_from_full_and_name_witness :
    (∃ c, [Cell.str "Nom complet", Cell.str "Full Name", Cell.str "Nom"][1]? = some c ∧
      includes (lowerHeader c) "full" = true ∧ includes (lowerHeader c) "name" = true ∧
      includes (lowerHeader c) "nom" = false) ∧
    (detectColumnMapping [.str "Nom complet", .str "Full Name", .str "Nom"]).fullName ≠
      some 0 ∧
    (detectColumnMapping [.str "Nom complet", .str "Full Name", .str "Nom"]).lastName ≠
      some 0 :=
  ⟨(fullName_only_from_full_and_name
      [.str "Nom complet", .str "Full Name", .str "Nom"]).1 1 (by decide),
    ((fullName_only_from_full_and_name
      [.str "Nom complet", .str "Full Name", .str "Nom"]).2.1 0
      (.str "Nom complet") (by decide) (by decide)).1,
    fun h =>
      absurd
        ((((fullName_only_from_full_and_name
          [.str "Nom complet", .str "Full Name", .str "Nom"]).2.2.2.2.2 0
          (.str "Nom complet") (by decide) (by decide)).2 (by decide)).1 h 2 (.str "Nom")
          (by decide) (by decide))
        (by decide)⟩

end ExcelToVcf
